import Mathlib

/-!
Verification of the four-bar linkage kinematics core
(`src/services/kinematics.ts` of haijunsu-osu/limit_analysis_4bar).

The TypeScript core is pure closed-form geometry over IEEE doubles; we embed
it shallowly over the real numbers `ℝ`: `Math.sqrt` becomes `Real.sqrt`,
`Math.acos` becomes `Real.arccos`, `Math.atan2 y x` becomes `Complex.arg ⟨x, y⟩`
(which agrees with atan2 on every quadrant, on the axes and at the origin),
and JavaScript numbers become real numbers.  Division by zero is Lean's
`x / 0 = 0` convention; the places where the source can actually divide by
zero are treated explicitly in the claims concerned.
-/

/-- A planar point, mirroring `interface Point { x, y }` of `src/types.ts`. -/
structure Point where
  x : ℝ
  y : ℝ

/-- `interface MechanismConfig` of `src/types.ts`: four link lengths and the
assembly mode (`1` open, `-1` crossed, typed `1 | -1` in the source). -/
structure MechanismConfig where
  r1 : ℝ
  r2 : ℝ
  r3 : ℝ
  r4 : ℝ
  assemblyMode : ℤ

/-- `interface MechanismState` of `src/types.ts`. -/
structure MechanismState where
  A : Point
  B : Point
  O2 : Point
  O4 : Point
  theta2 : ℝ
  theta3 : ℝ
  theta4 : ℝ
  transmissionAngle : ℝ
  isValid : Bool

/-- `enum GrashofType` of `src/types.ts`. -/
inductive GrashofType where
  | CRANK_ROCKER
  | DOUBLE_CRANK
  | DOUBLE_ROCKER
  | CHANGE_POINT
  | TRIPLE_ROCKER
  | INVALID
deriving DecidableEq

/-- `interface LimitAnalysis` of `src/types.ts`. -/
structure LimitAnalysis where
  hasRockerLimits : Bool
  rockerMin : ℝ
  rockerMax : ℝ
  transmissionMin : ℝ
  transmissionMax : ℝ
  limitStateMin : Option MechanismState
  limitStateMax : Option MechanismState

/-- `calculateA` of `kinematics.ts`: position of the crank tip. -/
noncomputable def calculateA (r2 theta2 : ℝ) : Point :=
  ⟨r2 * Real.cos theta2, r2 * Real.sin theta2⟩

/-- `distance` of `kinematics.ts`: Euclidean distance between two points. -/
noncomputable def distance (p1 p2 : Point) : ℝ :=
  Real.sqrt ((p2.x - p1.x) ^ 2 + (p2.y - p1.y) ^ 2)

/-- `toDegrees` of `kinematics.ts`. -/
noncomputable def toDegrees (rad : ℝ) : ℝ :=
  (rad * 180) / Real.pi

/-- `toRadians` of `kinematics.ts`. -/
noncomputable def toRadians (deg : ℝ) : ℝ :=
  (deg * Real.pi) / 180

/-- `Math.atan2 y x`, embedded as the argument of the complex number `x + y*i`.
`Complex.arg` has range `(-π, π]` and satisfies `arg ⟨0, 0⟩ = 0`, exactly as
JavaScript's `Math.atan2` on `(+0, +0)`. -/
noncomputable def atan2 (y x : ℝ) : ℝ :=
  Complex.arg ⟨x, y⟩

/-- First circle-circle intersection candidate of `solveFourBar`
(`B1` in the source), hoisted to a top-level definition: intersection of
`Circle(A, r3)` and `Circle(O4, r4)` on one side of the line `A O4`. -/
noncomputable def fwdB1 (config : MechanismConfig) (theta2 : ℝ) : Point :=
  let A := calculateA config.r2 theta2
  let O4 : Point := ⟨config.r1, 0⟩
  let dist_AO4 := distance A O4
  let a_dist := (config.r3 * config.r3 - config.r4 * config.r4 + dist_AO4 * dist_AO4) /
    (2 * dist_AO4)
  let h := Real.sqrt (max 0 (config.r3 * config.r3 - a_dist * a_dist))
  ⟨A.x + a_dist * (O4.x - A.x) / dist_AO4 + h * (O4.y - A.y) / dist_AO4,
   A.y + a_dist * (O4.y - A.y) / dist_AO4 - h * (O4.x - A.x) / dist_AO4⟩

/-- Second intersection candidate of `solveFourBar` (`B2` in the source). -/
noncomputable def fwdB2 (config : MechanismConfig) (theta2 : ℝ) : Point :=
  let A := calculateA config.r2 theta2
  let O4 : Point := ⟨config.r1, 0⟩
  let dist_AO4 := distance A O4
  let a_dist := (config.r3 * config.r3 - config.r4 * config.r4 + dist_AO4 * dist_AO4) /
    (2 * dist_AO4)
  let h := Real.sqrt (max 0 (config.r3 * config.r3 - a_dist * a_dist))
  ⟨A.x + a_dist * (O4.x - A.x) / dist_AO4 - h * (O4.y - A.y) / dist_AO4,
   A.y + a_dist * (O4.y - A.y) / dist_AO4 + h * (O4.x - A.x) / dist_AO4⟩

/-- `solveFourBar` of `kinematics.ts`: forward position analysis.  The guard,
the sentinel invalid state, the branch selection by `assemblyMode === 1`, the
angles and the clamped law-of-cosines transmission angle follow the source
line by line (the two intersection candidates are the hoisted `fwdB1`/`fwdB2`). -/
noncomputable def solveFourBar (config : MechanismConfig) (theta2 : ℝ) : MechanismState :=
  let O2 : Point := ⟨0, 0⟩
  let O4 : Point := ⟨config.r1, 0⟩
  let A := calculateA config.r2 theta2
  let dist_AO4 := distance A O4
  if dist_AO4 > config.r3 + config.r4 ∨ dist_AO4 < |config.r3 - config.r4| ∨ dist_AO4 = 0 then
    { A := A, B := ⟨0, 0⟩, O2 := O2, O4 := O4,
      theta2 := theta2, theta3 := 0, theta4 := 0, transmissionAngle := 0,
      isValid := false }
  else
    let B := if config.assemblyMode = 1 then fwdB1 config theta2 else fwdB2 config theta2
    let val := (config.r3 * config.r3 + config.r4 * config.r4 - dist_AO4 * dist_AO4) /
      (2 * config.r3 * config.r4)
    let clampedVal := max (-1) (min 1 val)
    { A := A, B := B, O2 := O2, O4 := O4,
      theta2 := theta2,
      theta3 := atan2 (B.y - A.y) (B.x - A.x),
      theta4 := atan2 (B.y - O4.y) (B.x - O4.x),
      transmissionAngle := Real.arccos clampedVal,
      isValid := true }

/-- The candidate crank tip `A1` constructed by `solveInverseTheta2`
(intersection of `Circle(O2, r2)` and `Circle(B, r3)` on one fixed side),
hoisted to a top-level definition. -/
noncomputable def inverseCandidateA (config : MechanismConfig) (targetTheta4 : ℝ) : Point :=
  let Bx := config.r1 + config.r4 * Real.cos targetTheta4
  let By := config.r4 * Real.sin targetTheta4
  let dist_O2B := Real.sqrt (Bx * Bx + By * By)
  let a_dist := (config.r2 * config.r2 - config.r3 * config.r3 + dist_O2B * dist_O2B) /
    (2 * dist_O2B)
  let h := Real.sqrt (max 0 (config.r2 * config.r2 - a_dist * a_dist))
  ⟨0 + a_dist * (Bx - 0) / dist_O2B + h * (By - 0) / dist_O2B,
   0 + a_dist * (By - 0) / dist_O2B - h * (Bx - 0) / dist_O2B⟩

/-- `solveInverseTheta2` of `kinematics.ts`: inverse position analysis,
returning `none` for the source's `null`. -/
noncomputable def solveInverseTheta2 (config : MechanismConfig) (targetTheta4 : ℝ) :
    Option ℝ :=
  let Bx := config.r1 + config.r4 * Real.cos targetTheta4
  let By := config.r4 * Real.sin targetTheta4
  let dist_O2B := Real.sqrt (Bx * Bx + By * By)
  if dist_O2B > config.r2 + config.r3 ∨ dist_O2B < |config.r2 - config.r3| then
    none
  else
    some (atan2 (inverseCandidateA config targetTheta4).y (inverseCandidateA config targetTheta4).x)

/-- `getGrashofType` of `kinematics.ts`.  The source sorts `[r1, r2, r3, r4]`
ascending and takes `s = links[0]`, `l = links[3]`, `p = links[1]`,
`q = links[2]`; for four numbers `s` is the minimum, `l` the maximum, and
`p + q` is the total minus `s` minus `l`, which is how the sum of the middle
pair is written here. -/
noncomputable def getGrashofType (config : MechanismConfig) : GrashofType :=
  let s := min (min config.r1 config.r2) (min config.r3 config.r4)
  let l := max (max config.r1 config.r2) (max config.r3 config.r4)
  let pq := config.r1 + config.r2 + config.r3 + config.r4 - s - l
  if ¬ (s + l ≤ pq) then GrashofType.TRIPLE_ROCKER
  else if s + l = pq then GrashofType.CHANGE_POINT
  else if config.r2 = s then GrashofType.CRANK_ROCKER
  else if config.r1 = s then GrashofType.DOUBLE_CRANK
  else if config.r3 = s then GrashofType.DOUBLE_ROCKER
  else if config.r4 = s then GrashofType.DOUBLE_ROCKER
  else GrashofType.DOUBLE_ROCKER

/-- The closure `calcLimitState` of `calculateLimits`: the mechanism state at
a crank-coupler collinear configuration with `|O2 B| = distO2B`, or `none`
when the triangle `(O2, O4, B)` cannot close. -/
noncomputable def calcLimitState (r1 r2 r3 r4 distO2B : ℝ) : Option MechanismState :=
  let cosGamma := (r1 * r1 + r4 * r4 - distO2B * distO2B) / (2 * r1 * r4)
  if |cosGamma| > 1 then none
  else
    let gamma := Real.arccos cosGamma
    let t4 := Real.pi - gamma
    let O4 : Point := ⟨r1, 0⟩
    let B : Point := ⟨O4.x + r4 * Real.cos t4, O4.y + r4 * Real.sin t4⟩
    let isExtended := |distO2B - (r2 + r3)| < 0.001
    let scale := if isExtended then r2 / (r2 + r3)
      else if r2 ≥ r3 then r2 / (r2 - r3) else -r2 / (r3 - r2)
    let A : Point := ⟨B.x * scale, B.y * scale⟩
    let t2 := atan2 A.y A.x
    some { A := A, B := B, O2 := ⟨0, 0⟩, O4 := O4,
           theta2 := t2, theta3 := 0, theta4 := t4, transmissionAngle := 0,
           isValid := true }

/-- The helper `getTransAngle` of `calculateLimits`: transmission angle (in
degrees) at a given distance `|A O4|`, with the cosine clamped to `[-1, 1]`. -/
noncomputable def getTransAngle (r3 r4 dA_O4 : ℝ) : ℝ :=
  let val := (r3 * r3 + r4 * r4 - dA_O4 * dA_O4) / (2 * r3 * r4)
  let clamped := max (-1) (min 1 val)
  toDegrees (Real.arccos clamped)

/-- `calculateLimits` of `kinematics.ts`.  Rocker limits from the two
crank-coupler collinear distances `r2 + r3` and `|r2 - r3|`; transmission
limits from the two crank-ground collinear distances `|r1 - r2|` and
`r1 + r2`.  Note the source destructures only `r1..r4` from the
configuration: `assemblyMode` is never read. -/
noncomputable def calculateLimits (config : MechanismConfig) : LimitAnalysis :=
  let r1 := config.r1
  let r2 := config.r2
  let r3 := config.r3
  let r4 := config.r4
  let distExt := r2 + r3
  let distRet := |r2 - r3|
  let s1 := calcLimitState r1 r2 r3 r4 distExt
  let s2 := calcLimitState r1 r2 r3 r4 distRet
  let d1 := |r1 - r2|
  let d2 := r1 + r2
  let tA := getTransAngle r3 r4 d1
  let tB := getTransAngle r3 r4 d2
  match s1, s2 with
  | some st1, some st2 =>
      let ang1 := toDegrees st1.theta4
      let ang2 := toDegrees st2.theta4
      { hasRockerLimits := true,
        rockerMin := min ang1 ang2,
        rockerMax := max ang1 ang2,
        transmissionMin := min tA tB,
        transmissionMax := max tA tB,
        limitStateMin := if ang1 < ang2 then some st1 else some st2,
        limitStateMax := if ang1 < ang2 then some st2 else some st1 }
  | _, _ =>
      { hasRockerLimits := false,
        rockerMin := 0,
        rockerMax := 360,
        transmissionMin := min tA tB,
        transmissionMax := max tA tB,
        limitStateMin := none,
        limitStateMax := none }

/-! ### Basic facts about `distance` -/

/-- `distance` agrees with the metric on `ℂ`. -/
lemma distance_eq_dist (p q : Point) :
    distance p q = dist (⟨p.x, p.y⟩ : ℂ) (⟨q.x, q.y⟩ : ℂ) := by
  rw [Complex.dist_eq_re_im, distance]
  congr 1
  ring

lemma distance_nonneg (p q : Point) : 0 ≤ distance p q :=
  Real.sqrt_nonneg _

lemma distance_comm (p q : Point) : distance p q = distance q p := by
  rw [distance_eq_dist, distance_eq_dist, dist_comm]

lemma distance_triangle (p q r : Point) : distance p r ≤ distance p q + distance q r := by
  rw [distance_eq_dist, distance_eq_dist, distance_eq_dist]
  exact dist_triangle _ _ _

lemma abs_distance_sub_le (p q r : Point) :
    |distance p r - distance q r| ≤ distance p q := by
  rw [distance_eq_dist, distance_eq_dist, distance_eq_dist]
  exact abs_dist_sub_le _ _ _

lemma distance_sq (p q : Point) :
    distance p q ^ 2 = (q.x - p.x) ^ 2 + (q.y - p.y) ^ 2 := by
  rw [distance]
  exact Real.sq_sqrt (by positivity)

lemma distance_eq_zero_iff (p q : Point) :
    distance p q = 0 ↔ q.x = p.x ∧ q.y = p.y := by
  rw [distance, Real.sqrt_eq_zero']
  constructor
  · intro hle
    have hx : (q.x - p.x) ^ 2 = 0 :=
      le_antisymm (by nlinarith [sq_nonneg (q.y - p.y)]) (sq_nonneg _)
    have hy : (q.y - p.y) ^ 2 = 0 :=
      le_antisymm (by nlinarith [sq_nonneg (q.x - p.x)]) (sq_nonneg _)
    constructor
    · have := pow_eq_zero_iff (n := 2) (by norm_num) |>.mp hx
      linarith [this]
    · have := pow_eq_zero_iff (n := 2) (by norm_num) |>.mp hy
      linarith [this]
  · rintro ⟨h1, h2⟩
    rw [h1, h2]
    simp

/-- Distance from the origin to the crank tip is the crank length. -/
lemma distance_origin_calculateA (r θ : ℝ) (hr : 0 ≤ r) :
    distance ⟨0, 0⟩ (calculateA r θ) = r := by
  rw [distance, calculateA]
  have key : (r * Real.cos θ - 0) ^ 2 + (r * Real.sin θ - 0) ^ 2 = r ^ 2 := by
    have h := Real.sin_sq_add_cos_sq θ
    linear_combination r ^ 2 * h
  rw [key, Real.sqrt_sq hr]

/-- Distance from the origin to the second ground pivot `(r1, 0)`. -/
lemma distance_origin_ground (r1 : ℝ) : distance ⟨0, 0⟩ ⟨r1, 0⟩ = |r1| := by
  rw [distance]
  have key : ((⟨r1, 0⟩ : Point).x - (⟨0, 0⟩ : Point).x) ^ 2 +
      ((⟨r1, 0⟩ : Point).y - (⟨0, 0⟩ : Point).y) ^ 2 = r1 ^ 2 := by
    simp
  rw [key, Real.sqrt_sq_eq_abs]

/-! ### Circle-circle intersection algebra -/

/-- When two circles of radii `r` and `s` with centers `d` apart satisfy the
triangle inequality, the radical half-chord square `r² - a²` is nonnegative. -/
lemma radical_sq_nonneg (r s d : ℝ) (hd : 0 < d)
    (hlo : |r - s| ≤ d) (hhi : d ≤ r + s) :
    0 ≤ r * r - ((r * r - s * s + d * d) / (2 * d)) ^ 2 := by
  obtain ⟨hlo1, hlo2⟩ := abs_le.mp hlo
  have h2d : (0 : ℝ) < 2 * d := by linarith
  have hup : (r * r - s * s + d * d) / (2 * d) ≤ r := by
    rw [div_le_iff h2d]
    nlinarith [mul_nonneg (by linarith : (0:ℝ) ≤ s - r + d) (by linarith : (0:ℝ) ≤ s + r - d)]
  have hdn : -r ≤ (r * r - s * s + d * d) / (2 * d) := by
    rw [le_div_iff h2d]
    nlinarith [mul_nonneg (by linarith : (0:ℝ) ≤ r + d - s) (by linarith : (0:ℝ) ≤ r + d + s)]
  have hsq : ((r * r - s * s + d * d) / (2 * d)) ^ 2 ≤ r ^ 2 := sq_le_sq' hdn hup
  nlinarith [hsq]

/-- Both constructed intersection points (`sgn = 1` and `sgn = -1` pick the
two sides of the center line) lie at distance `r` from the first center and
distance `s` from the second. -/
lemma intersect_point_dists (cx cy wx wy d a h r s : ℝ) (hd : 0 < d)
    (hw : wx * wx + wy * wy = d * d)
    (ha : 2 * d * a = r * r - s * s + d * d)
    (hh : h * h = r * r - a * a)
    (hr : 0 ≤ r) (hs : 0 ≤ s) :
    distance ⟨cx, cy⟩ ⟨cx + a * wx / d + h * wy / d, cy + a * wy / d - h * wx / d⟩ = r ∧
    distance ⟨cx + wx, cy + wy⟩
      ⟨cx + a * wx / d + h * wy / d, cy + a * wy / d - h * wx / d⟩ = s := by
  have hd' : d ≠ 0 := ne_of_gt hd
  constructor
  · rw [distance]
    have key : (cx + a * wx / d + h * wy / d - cx) ^ 2 +
        (cy + a * wy / d - h * wx / d - cy) ^ 2 = r ^ 2 := by
      have expand : (cx + a * wx / d + h * wy / d - cx) ^ 2 +
          (cy + a * wy / d - h * wx / d - cy) ^ 2 =
          (a * a + h * h) * ((wx * wx + wy * wy) / (d * d)) := by
        field_simp
        ring
      rw [expand, hw]
      rw [div_self (by positivity : d * d ≠ 0), mul_one, hh]
      ring
    rw [key, Real.sqrt_sq hr]
  · rw [distance]
    have key : (cx + a * wx / d + h * wy / d - (cx + wx)) ^ 2 +
        (cy + a * wy / d - h * wx / d - (cy + wy)) ^ 2 = s ^ 2 := by
      have expand : (cx + a * wx / d + h * wy / d - (cx + wx)) ^ 2 +
          (cy + a * wy / d - h * wx / d - (cy + wy)) ^ 2 =
          ((a - d) * (a - d) + h * h) * ((wx * wx + wy * wy) / (d * d)) := by
        field_simp
        ring
      rw [expand, hw]
      rw [div_self (by positivity : d * d ≠ 0), mul_one, hh]
      nlinarith [ha]
    rw [key, Real.sqrt_sq hs]

/-- Completeness: every point lying on both circles is one of the two
constructed candidates. -/
lemma intersect_point_complete (cx cy wx wy px py d a h r : ℝ) {s : ℝ} (hd : 0 < d)
    (hw : wx * wx + wy * wy = d * d)
    (ha : 2 * d * a = r * r - s * s + d * d)
    (hh : h = Real.sqrt (max 0 (r * r - a * a)))
    (hp1 : (px - cx) ^ 2 + (py - cy) ^ 2 = r * r)
    (hp2 : (px - (cx + wx)) ^ 2 + (py - (cy + wy)) ^ 2 = s * s) :
    (px = cx + a * wx / d + h * wy / d ∧ py = cy + a * wy / d - h * wx / d) ∨
    (px = cx + a * wx / d - h * wy / d ∧ py = cy + a * wy / d + h * wx / d) := by
  have hd' : d ≠ 0 := ne_of_gt hd
  have hdot : (px - cx) * wx + (py - cy) * wy = a * d := by
    linear_combination (1/2 : ℝ) * hp1 - (1/2 : ℝ) * hp2 + (1/2 : ℝ) * hw - (1/2 : ℝ) * ha
  have hbeta : ((px - cx) * wy - (py - cy) * wx) ^ 2 = (r * r - a * a) * (d * d) := by
    linear_combination (wx * wx + wy * wy) * hp1 + (r * r) * hw -
      ((px - cx) * wx + (py - cy) * wy + a * d) * hdot
  have hra_nonneg : 0 ≤ r * r - a * a := by
    have h1 : 0 ≤ (r * r - a * a) * (d * d) := hbeta ▸ sq_nonneg _
    nlinarith [h1, mul_pos hd hd]
  have hh2 : h * h = r * r - a * a := by
    rw [hh, max_eq_right hra_nonneg]
    exact Real.mul_self_sqrt hra_nonneg
  have hbh : ((px - cx) * wy - (py - cy) * wx - h * d) *
      ((px - cx) * wy - (py - cy) * wx + h * d) = 0 := by
    linear_combination hbeta - (d * d) * hh2
  have hqx : (px - cx) * (d * d) = a * d * wx + ((px - cx) * wy - (py - cy) * wx) * wy := by
    linear_combination (-(px - cx)) * hw + wx * hdot
  have hqy : (py - cy) * (d * d) = a * d * wy - ((px - cx) * wy - (py - cy) * wx) * wx := by
    linear_combination (-(py - cy)) * hw + wy * hdot
  rcases mul_eq_zero.mp hbh with hcase | hcase
  · left
    have hb : (px - cx) * wy - (py - cy) * wx = h * d := by linarith
    rw [hb] at hqx hqy
    constructor
    · have e1 : ((px - cx) * d) * d = (a * wx + h * wy) * d := by linear_combination hqx
      have e2 : (px - cx) * d = a * wx + h * wy := mul_right_cancel₀ hd' e1
      field_simp
      linear_combination e2
    · have e1 : ((py - cy) * d) * d = (a * wy - h * wx) * d := by linear_combination hqy
      have e2 : (py - cy) * d = a * wy - h * wx := mul_right_cancel₀ hd' e1
      field_simp
      linear_combination e2
  · right
    have hb : (px - cx) * wy - (py - cy) * wx = -(h * d) := by linarith
    rw [hb] at hqx hqy
    constructor
    · have e1 : ((px - cx) * d) * d = (a * wx - h * wy) * d := by linear_combination hqx
      have e2 : (px - cx) * d = a * wx - h * wy := mul_right_cancel₀ hd' e1
      field_simp
      linear_combination e2
    · have e1 : ((py - cy) * d) * d = (a * wy + h * wx) * d := by linear_combination hqy
      have e2 : (py - cy) * d = a * wy + h * wx := mul_right_cancel₀ hd' e1
      field_simp
      linear_combination e2

/-! ### atan2 facts -/

/-- A point at distance `r > 0` from the origin is reconstructed exactly by
`r * (cos (atan2 y x), sin (atan2 y x))`. -/
lemma atan2_cos_sin (x y r : ℝ) (hr : 0 < r) (hxy : x ^ 2 + y ^ 2 = r ^ 2) :
    r * Real.cos (atan2 y x) = x ∧ r * Real.sin (atan2 y x) = y := by
  have habs : Complex.abs ⟨x, y⟩ = r := by
    rw [Complex.abs_apply, Complex.normSq_mk]
    rw [show x * x + y * y = r ^ 2 by linear_combination hxy]
    exact Real.sqrt_sq hr.le
  have hz : (⟨x, y⟩ : ℂ) ≠ 0 := by
    intro h
    rw [h, map_zero] at habs
    exact hr.ne habs
  constructor
  · rw [atan2, Complex.cos_arg hz, habs]
    field_simp
  · rw [atan2, Complex.sin_arg, habs]
    field_simp

lemma atan2_zero_zero : atan2 0 0 = 0 := by
  rw [atan2]
  have : (⟨0, 0⟩ : ℂ) = 0 := Complex.ext rfl rfl
  rw [this, Complex.arg_zero]

lemma atan2_zero_one : atan2 0 1 = 0 := by
  rw [atan2]
  have : (⟨1, 0⟩ : ℂ) = 1 := Complex.ext rfl rfl
  rw [this, Complex.arg_one]

lemma atan2_zero_neg_one : atan2 0 (-1) = Real.pi := by
  rw [atan2]
  have : (⟨-1, 0⟩ : ℂ) = -1 := by apply Complex.ext <;> simp
  rw [this, Complex.arg_neg_one]

lemma atan2_one_zero : atan2 1 0 = Real.pi / 2 := by
  rw [atan2]
  have : (⟨0, 1⟩ : ℂ) = Complex.I := Complex.ext rfl rfl
  rw [this, Complex.arg_I]

/-! ### Structural lemmas for `solveFourBar` -/

/-- The forward solver's validity gate, by name. -/
noncomputable def fwdGate (config : MechanismConfig) (theta2 : ℝ) : Prop :=
  distance (calculateA config.r2 theta2) ⟨config.r1, 0⟩ > config.r3 + config.r4 ∨
  distance (calculateA config.r2 theta2) ⟨config.r1, 0⟩ < |config.r3 - config.r4| ∨
  distance (calculateA config.r2 theta2) ⟨config.r1, 0⟩ = 0

lemma solveFourBar_of_gate (config : MechanismConfig) (theta2 : ℝ)
    (h : fwdGate config theta2) :
    solveFourBar config theta2 =
      { A := calculateA config.r2 theta2, B := ⟨0, 0⟩, O2 := ⟨0, 0⟩, O4 := ⟨config.r1, 0⟩,
        theta2 := theta2, theta3 := 0, theta4 := 0, transmissionAngle := 0,
        isValid := false } := by
  unfold fwdGate at h
  rw [solveFourBar, if_pos h]

lemma solveFourBar_of_not_gate (config : MechanismConfig) (theta2 : ℝ)
    (h : ¬ fwdGate config theta2) :
    solveFourBar config theta2 =
      { A := calculateA config.r2 theta2,
        B := if config.assemblyMode = 1 then fwdB1 config theta2 else fwdB2 config theta2,
        O2 := ⟨0, 0⟩, O4 := ⟨config.r1, 0⟩,
        theta2 := theta2,
        theta3 := atan2
          ((if config.assemblyMode = 1 then fwdB1 config theta2 else fwdB2 config theta2).y -
            (calculateA config.r2 theta2).y)
          ((if config.assemblyMode = 1 then fwdB1 config theta2 else fwdB2 config theta2).x -
            (calculateA config.r2 theta2).x),
        theta4 := atan2
          ((if config.assemblyMode = 1 then fwdB1 config theta2 else fwdB2 config theta2).y - 0)
          ((if config.assemblyMode = 1 then fwdB1 config theta2 else fwdB2 config theta2).x -
            config.r1),
        transmissionAngle := Real.arccos (max (-1) (min 1
          ((config.r3 * config.r3 + config.r4 * config.r4 -
              distance (calculateA config.r2 theta2) ⟨config.r1, 0⟩ *
              distance (calculateA config.r2 theta2) ⟨config.r1, 0⟩) /
            (2 * config.r3 * config.r4)))),
        isValid := true } := by
  unfold fwdGate at h
  rw [solveFourBar, if_neg h]

lemma solveFourBar_isValid_false_iff (config : MechanismConfig) (theta2 : ℝ) :
    (solveFourBar config theta2).isValid = false ↔ fwdGate config theta2 := by
  constructor
  · intro h
    by_contra hg
    rw [solveFourBar_of_not_gate config theta2 hg] at h
    simp at h
  · intro hg
    rw [solveFourBar_of_gate config theta2 hg]

/-- In the valid branch, both intersection candidates lie at distance `r3`
from the crank tip `A` and `r4` from the ground pivot `O4`. -/
lemma fwdB_dists (config : MechanismConfig) (theta2 : ℝ)
    (hr3 : 0 ≤ config.r3) (hr4 : 0 ≤ config.r4)
    (hg : ¬ fwdGate config theta2) :
    (distance (calculateA config.r2 theta2) (fwdB1 config theta2) = config.r3 ∧
     distance ⟨config.r1, 0⟩ (fwdB1 config theta2) = config.r4) ∧
    (distance (calculateA config.r2 theta2) (fwdB2 config theta2) = config.r3 ∧
     distance ⟨config.r1, 0⟩ (fwdB2 config theta2) = config.r4) := by
  unfold fwdGate at hg
  push_neg at hg
  obtain ⟨hhi, hlo, hne⟩ := hg
  set A := calculateA config.r2 theta2 with hA
  set O4 : Point := ⟨config.r1, 0⟩ with hO4
  set d := distance A O4 with hd_def
  have hd0 : 0 < d := lt_of_le_of_ne (distance_nonneg A O4) (Ne.symm hne)
  have hw : (O4.x - A.x) * (O4.x - A.x) + (O4.y - A.y) * (O4.y - A.y) = d * d := by
    have hsq := distance_sq A O4
    nlinarith [hsq]
  set a := (config.r3 * config.r3 - config.r4 * config.r4 + d * d) / (2 * d) with ha_def
  have ha : 2 * d * a = config.r3 * config.r3 - config.r4 * config.r4 + d * d := by
    rw [ha_def]
    field_simp
  have hnn : 0 ≤ config.r3 * config.r3 - a * a := by
    have hr := radical_sq_nonneg config.r3 config.r4 d hd0 hlo hhi
    rw [ha_def]
    nlinarith [hr]
  set h := Real.sqrt (max 0 (config.r3 * config.r3 - a * a)) with hh_def
  have hh : h * h = config.r3 * config.r3 - a * a := by
    rw [hh_def, max_eq_right hnn]
    exact Real.mul_self_sqrt hnn
  have main1 := intersect_point_dists A.x A.y (O4.x - A.x) (O4.y - A.y) d a h
    config.r3 config.r4 hd0 hw ha hh hr3 hr4
  have main2 := intersect_point_dists A.x A.y (O4.x - A.x) (O4.y - A.y) d a (-h)
    config.r3 config.r4 hd0 hw ha (by linear_combination hh) hr3 hr4
  have e2 : (⟨A.x + (O4.x - A.x), A.y + (O4.y - A.y)⟩ : Point) = O4 := by
    congr 1 <;> ring
  have eB1 : fwdB1 config theta2 =
      ⟨A.x + a * (O4.x - A.x) / d + h * (O4.y - A.y) / d,
       A.y + a * (O4.y - A.y) / d - h * (O4.x - A.x) / d⟩ := by
    simp only [fwdB1]
  have eB2 : fwdB2 config theta2 =
      ⟨A.x + a * (O4.x - A.x) / d + -h * (O4.y - A.y) / d,
       A.y + a * (O4.y - A.y) / d - -h * (O4.x - A.x) / d⟩ := by
    simp only [fwdB2]
    congr 1 <;> ring
  rw [eB1, eB2]
  rw [e2] at main1 main2
  exact ⟨⟨main1.1, main1.2⟩, ⟨main2.1, main2.2⟩⟩

/-! ### Named pieces of the Grashof classifier (the sorted quantities) -/

/-- `s = links[0]` of the classifier: the shortest link. -/
noncomputable def shortestLink (config : MechanismConfig) : ℝ :=
  min (min config.r1 config.r2) (min config.r3 config.r4)

/-- `l = links[3]` of the classifier: the longest link. -/
noncomputable def longestLink (config : MechanismConfig) : ℝ :=
  max (max config.r1 config.r2) (max config.r3 config.r4)

/-- `p + q = links[1] + links[2]` of the classifier: the sum of the two
middle links, i.e. the total minus the shortest minus the longest. -/
noncomputable def middleSum (config : MechanismConfig) : ℝ :=
  config.r1 + config.r2 + config.r3 + config.r4 - shortestLink config - longestLink config

/-- C1: for every configuration with positive lengths and every input angle,
a forward solve reporting `isValid = true` satisfies the three exact distance
invariants `|O2 A| = r2`, `|A B| = r3`, `|B O4| = r4` (exact real
arithmetic). -/
theorem C1_forward_distance_invariants (config : MechanismConfig) (theta2 : ℝ)
    (h1 : 0 < config.r1) (h2 : 0 < config.r2) (h3 : 0 < config.r3) (h4 : 0 < config.r4)
    (hv : (solveFourBar config theta2).isValid = true) :
    distance (solveFourBar config theta2).O2 (solveFourBar config theta2).A = config.r2 ∧
    distance (solveFourBar config theta2).A (solveFourBar config theta2).B = config.r3 ∧
    distance (solveFourBar config theta2).B (solveFourBar config theta2).O4 = config.r4 := by
  have hg : ¬ fwdGate config theta2 := by
    intro hgate
    rw [solveFourBar_of_gate config theta2 hgate] at hv
    simp at hv
  obtain ⟨⟨d11, d12⟩, ⟨d21, d22⟩⟩ := fwdB_dists config theta2 h3.le h4.le hg
  rw [solveFourBar_of_not_gate config theta2 hg]
  dsimp only
  refine ⟨distance_origin_calculateA _ _ h2.le, ?_, ?_⟩
  · split
    · exact d11
    · exact d21
  · rw [distance_comm]
    split
    · exact d12
    · exact d22

/-- C2: the forward solver reports `isValid = false` exactly when
`d = |A O4|` is zero, exceeds `r3 + r4`, or is below `|r3 - r4|`; and in that
case the sentinel state has `B = (0,0)` and zero derived angles. -/
theorem C2_validity_gate_sentinel (config : MechanismConfig) (theta2 : ℝ) :
    ((solveFourBar config theta2).isValid = false ↔
      (distance (calculateA config.r2 theta2) ⟨config.r1, 0⟩ = 0 ∨
       distance (calculateA config.r2 theta2) ⟨config.r1, 0⟩ > config.r3 + config.r4 ∨
       distance (calculateA config.r2 theta2) ⟨config.r1, 0⟩ < |config.r3 - config.r4|)) ∧
    ((solveFourBar config theta2).isValid = false →
      (solveFourBar config theta2).B = ⟨0, 0⟩ ∧
      (solveFourBar config theta2).theta3 = 0 ∧
      (solveFourBar config theta2).theta4 = 0 ∧
      (solveFourBar config theta2).transmissionAngle = 0) := by
  constructor
  · rw [solveFourBar_isValid_false_iff]
    unfold fwdGate
    tauto
  · intro hf
    have hgate := (solveFourBar_isValid_false_iff config theta2).mp hf
    rw [solveFourBar_of_gate config theta2 hgate]
    exact ⟨rfl, rfl, rfl, rfl⟩

/-- C9: a configuration with one link longer than the sum of the other three
yields `isValid = false` for every input angle. -/
theorem C9_quadrilateral_violation_invalid (r1 r2 r3 r4 theta2 : ℝ) (m : ℤ)
    (h1 : 0 < r1) (h2 : 0 < r2) (h3 : 0 < r3) (h4 : 0 < r4)
    (hbig : r2 + r3 + r4 < r1 ∨ r1 + r3 + r4 < r2 ∨ r1 + r2 + r4 < r3 ∨ r1 + r2 + r3 < r4) :
    (solveFourBar ⟨r1, r2, r3, r4, m⟩ theta2).isValid = false := by
  rw [solveFourBar_isValid_false_iff]
  unfold fwdGate
  dsimp only
  have hOA : distance ⟨0, 0⟩ (calculateA r2 theta2) = r2 :=
    distance_origin_calculateA r2 theta2 h2.le
  have hOG : distance ⟨0, 0⟩ (⟨r1, 0⟩ : Point) = r1 := by
    rw [distance_origin_ground]
    exact abs_of_pos h1
  have htri : distance (calculateA r2 theta2) ⟨r1, 0⟩ ≤
      distance (calculateA r2 theta2) ⟨0, 0⟩ + distance ⟨0, 0⟩ ⟨r1, 0⟩ :=
    distance_triangle _ _ _
  have hcom : distance (calculateA r2 theta2) ⟨0, 0⟩ = r2 := by
    rw [distance_comm]
    exact hOA
  have hrev : |distance ⟨0, 0⟩ (⟨r1, 0⟩ : Point) -
      distance (calculateA r2 theta2) ⟨r1, 0⟩| ≤ distance ⟨0, 0⟩ (calculateA r2 theta2) :=
    abs_distance_sub_le _ _ _
  rw [hOA, hOG] at hrev
  obtain ⟨hrev1, hrev2⟩ := abs_le.mp hrev
  have hrev' : |distance ⟨0, 0⟩ (calculateA r2 theta2) -
      distance (⟨r1, 0⟩ : Point) (calculateA r2 theta2)| ≤
      distance ⟨0, 0⟩ (⟨r1, 0⟩ : Point) :=
    abs_distance_sub_le _ _ _
  rw [hOA, hOG, distance_comm (⟨r1, 0⟩ : Point) (calculateA r2 theta2)] at hrev'
  obtain ⟨hrev3, hrev4⟩ := abs_le.mp hrev'
  rcases hbig with hb | hb | hb | hb
  · exact Or.inl (by linarith)
  · exact Or.inl (by linarith)
  · refine Or.inr (Or.inl ?_)
    have habs : r3 - r4 ≤ |r3 - r4| := le_abs_self _
    linarith
  · refine Or.inr (Or.inl ?_)
    have habs : r4 - r3 ≤ |r3 - r4| := by
      rw [abs_sub_comm]
      exact le_abs_self _
    linarith

/-- C10: the classifier only ever returns one of the five genuine Grashof
labels; in particular the `INVALID` label of the data model is never
produced. -/
theorem C10_classifier_never_invalid (config : MechanismConfig) :
    getGrashofType config = GrashofType.CRANK_ROCKER ∨
    getGrashofType config = GrashofType.DOUBLE_CRANK ∨
    getGrashofType config = GrashofType.DOUBLE_ROCKER ∨
    getGrashofType config = GrashofType.CHANGE_POINT ∨
    getGrashofType config = GrashofType.TRIPLE_ROCKER := by
  unfold getGrashofType
  dsimp only
  split_ifs <;> simp

/-- C7: the classifier implements Grashof's law: `s + l > p + q` gives
Triple-Rocker, exact equality gives Change-Point, and in the strict case the
label is decided by which named link is the shortest (`r2` crank-rocker,
`r1` double-crank, `r3`/`r4` double-rocker). -/
theorem C7_grashof_law (r1 r2 r3 r4 : ℝ) (m : ℤ) :
    (middleSum ⟨r1, r2, r3, r4, m⟩ < shortestLink ⟨r1, r2, r3, r4, m⟩ + longestLink ⟨r1, r2, r3, r4, m⟩ →
      getGrashofType ⟨r1, r2, r3, r4, m⟩ = GrashofType.TRIPLE_ROCKER) ∧
    (shortestLink ⟨r1, r2, r3, r4, m⟩ + longestLink ⟨r1, r2, r3, r4, m⟩ = middleSum ⟨r1, r2, r3, r4, m⟩ →
      getGrashofType ⟨r1, r2, r3, r4, m⟩ = GrashofType.CHANGE_POINT) ∧
    (shortestLink ⟨r1, r2, r3, r4, m⟩ + longestLink ⟨r1, r2, r3, r4, m⟩ < middleSum ⟨r1, r2, r3, r4, m⟩ →
      ((r2 = shortestLink ⟨r1, r2, r3, r4, m⟩ →
        getGrashofType ⟨r1, r2, r3, r4, m⟩ = GrashofType.CRANK_ROCKER) ∧
       (r1 = shortestLink ⟨r1, r2, r3, r4, m⟩ →
        getGrashofType ⟨r1, r2, r3, r4, m⟩ = GrashofType.DOUBLE_CRANK) ∧
       ((r3 = shortestLink ⟨r1, r2, r3, r4, m⟩ ∨ r4 = shortestLink ⟨r1, r2, r3, r4, m⟩) →
        getGrashofType ⟨r1, r2, r3, r4, m⟩ = GrashofType.DOUBLE_ROCKER))) := by
  unfold getGrashofType
  unfold middleSum
  unfold shortestLink longestLink
  dsimp only
  have hl1 : r1 ≤ r1 ⊔ r2 ⊔ (r3 ⊔ r4) := (le_max_left r1 r2).trans (le_max_left _ _)
  have hl2 : r2 ≤ r1 ⊔ r2 ⊔ (r3 ⊔ r4) := (le_max_right r1 r2).trans (le_max_left _ _)
  have hl3 : r3 ≤ r1 ⊔ r2 ⊔ (r3 ⊔ r4) := (le_max_left r3 r4).trans (le_max_right _ _)
  have hl4 : r4 ≤ r1 ⊔ r2 ⊔ (r3 ⊔ r4) := (le_max_right r3 r4).trans (le_max_right _ _)
  refine ⟨?_, ?_, ?_⟩
  · intro hlt
    rw [if_pos (by push_neg; linarith)]
  · intro heq
    rw [if_neg (by push_neg; exact le_of_eq heq), if_pos heq]
  · intro hstrict
    refine ⟨?_, ?_, ?_⟩
    · intro hr2
      rw [if_neg (by push_neg; linarith), if_neg (by linarith), if_pos hr2]
    · intro hr1
      have hr2ne : ¬ r2 = r1 ⊓ r2 ⊓ (r3 ⊓ r4) := by
        intro hr2
        linarith
      rw [if_neg (by push_neg; linarith), if_neg (by linarith), if_neg hr2ne, if_pos hr1]
    · intro hor
      have hr2ne : ¬ r2 = r1 ⊓ r2 ⊓ (r3 ⊓ r4) := by
        intro hr2
        rcases hor with hr | hr <;> linarith
      have hr1ne : ¬ r1 = r1 ⊓ r2 ⊓ (r3 ⊓ r4) := by
        intro hr1
        rcases hor with hr | hr <;> linarith
      rw [if_neg (by push_neg; linarith), if_neg (by linarith), if_neg hr2ne, if_neg hr1ne]
      split_ifs <;> rfl

/-! ### Numeric evaluation helpers for concrete witnesses -/

lemma sqrt_eq_of_sq (x y : ℝ) (hy : 0 ≤ y) (hxy : x = y ^ 2) : Real.sqrt x = y := by
  rw [hxy, Real.sqrt_sq hy]

lemma sqrt_le_of_sq (x b : ℝ) (hb : 0 ≤ b) (h : x ≤ b ^ 2) : Real.sqrt x ≤ b := by
  calc Real.sqrt x ≤ Real.sqrt (b ^ 2) := Real.sqrt_le_sqrt h
  _ = b := Real.sqrt_sq hb

lemma le_sqrt_of_sq (a x : ℝ) (ha : 0 ≤ a) (h : a ^ 2 ≤ x) : a ≤ Real.sqrt x := by
  calc a = Real.sqrt (a ^ 2) := (Real.sqrt_sq ha).symm
  _ ≤ Real.sqrt x := Real.sqrt_le_sqrt h

/-- Witness for C9 at the configuration `(20, 2, 3, 4)` (ground longer than
the other three links together), input angle `0`. -/
theorem C9_quadrilateral_violation_invalid_witness :
    ((0:ℝ) < 20 ∧ (0:ℝ) < 2 ∧ (0:ℝ) < 3 ∧ (0:ℝ) < 4 ∧ ((2:ℝ) + 3 + 4 < 20)) ∧
    (solveFourBar ⟨20, 2, 3, 4, 1⟩ 0).isValid = false :=
  ⟨⟨by norm_num, by norm_num, by norm_num, by norm_num, by norm_num⟩,
   C9_quadrilateral_violation_invalid 20 2 3 4 0 1 (by norm_num) (by norm_num) (by norm_num)
     (by norm_num) (Or.inl (by norm_num))⟩

/-- Witness for C7: the all-equal configuration `(100, 100, 100, 100)` is
classified Change-Point (the spec's own example). -/
theorem C7_grashof_law_witness :
    getGrashofType ⟨100, 100, 100, 100, 1⟩ = GrashofType.CHANGE_POINT := by
  apply (C7_grashof_law 100 100 100 100 1).2.1
  unfold middleSum
  unfold shortestLink longestLink
  dsimp only
  norm_num [min_self, max_self]

/-- Witness for C2 at the configuration `(10, 1, 1, 1)`, input angle `0`:
the crank tip sits at `(1, 0)`, `d = 9 > r3 + r4 = 2`, so the state is the
invalid sentinel. -/
theorem C2_validity_gate_sentinel_witness :
    (solveFourBar ⟨10, 1, 1, 1, 1⟩ 0).isValid = false ∧
    (solveFourBar ⟨10, 1, 1, 1, 1⟩ 0).B = ⟨0, 0⟩ ∧
    (solveFourBar ⟨10, 1, 1, 1, 1⟩ 0).theta3 = 0 ∧
    (solveFourBar ⟨10, 1, 1, 1, 1⟩ 0).theta4 = 0 ∧
    (solveFourBar ⟨10, 1, 1, 1, 1⟩ 0).transmissionAngle = 0 := by
  have hdist : distance (calculateA (⟨10, 1, 1, 1, 1⟩ : MechanismConfig).r2 0)
      ⟨(⟨10, 1, 1, 1, 1⟩ : MechanismConfig).r1, 0⟩ = 9 := by
    unfold calculateA distance
    dsimp only
    norm_num [Real.cos_zero, Real.sin_zero]
    exact sqrt_eq_of_sq _ _ (by norm_num) (by norm_num)
  have hv : (solveFourBar ⟨10, 1, 1, 1, 1⟩ 0).isValid = false := by
    apply (C2_validity_gate_sentinel ⟨10, 1, 1, 1, 1⟩ 0).1.mpr
    rw [hdist]
    dsimp only
    refine Or.inr (Or.inl ?_)
    norm_num
  exact ⟨hv, (C2_validity_gate_sentinel ⟨10, 1, 1, 1, 1⟩ 0).2 hv⟩

/-- Witness for C1 at the spec's concrete scenario: configuration
`(300, 100, 300, 200)`, open mode, input angle `π/2`; the solve is valid and
the three distance invariants hold exactly. -/
theorem C1_forward_distance_invariants_witness :
    ((0:ℝ) < 300 ∧ (0:ℝ) < 100 ∧ (0:ℝ) < 200 ∧
     (solveFourBar ⟨300, 100, 300, 200, 1⟩ (Real.pi / 2)).isValid = true) ∧
    (distance (solveFourBar ⟨300, 100, 300, 200, 1⟩ (Real.pi / 2)).O2
        (solveFourBar ⟨300, 100, 300, 200, 1⟩ (Real.pi / 2)).A = 100 ∧
     distance (solveFourBar ⟨300, 100, 300, 200, 1⟩ (Real.pi / 2)).A
        (solveFourBar ⟨300, 100, 300, 200, 1⟩ (Real.pi / 2)).B = 300 ∧
     distance (solveFourBar ⟨300, 100, 300, 200, 1⟩ (Real.pi / 2)).B
        (solveFourBar ⟨300, 100, 300, 200, 1⟩ (Real.pi / 2)).O4 = 200) := by
  have hdist : distance (calculateA (⟨300, 100, 300, 200, 1⟩ : MechanismConfig).r2 (Real.pi / 2))
      ⟨(⟨300, 100, 300, 200, 1⟩ : MechanismConfig).r1, 0⟩ = Real.sqrt 100000 := by
    unfold calculateA distance
    dsimp only
    norm_num [Real.cos_pi_div_two, Real.sin_pi_div_two]
  have hgate : ¬ fwdGate ⟨300, 100, 300, 200, 1⟩ (Real.pi / 2) := by
    unfold fwdGate
    rw [hdist]
    push_neg
    refine ⟨?_, ?_, ?_⟩
    · dsimp only
      exact sqrt_le_of_sq _ _ (by norm_num) (by norm_num)
    · dsimp only
      norm_num
      exact le_sqrt_of_sq _ _ (by norm_num) (by norm_num)
    · have : (0:ℝ) < Real.sqrt 100000 := Real.sqrt_pos.mpr (by norm_num)
      exact this.ne'
  have hv : (solveFourBar ⟨300, 100, 300, 200, 1⟩ (Real.pi / 2)).isValid = true := by
    rw [solveFourBar_of_not_gate _ _ hgate]
  exact ⟨⟨by norm_num, by norm_num, by norm_num, hv⟩,
    C1_forward_distance_invariants ⟨300, 100, 300, 200, 1⟩ (Real.pi / 2)
      (by norm_num) (by norm_num) (by norm_num) (by norm_num) hv⟩

/-! ### Projection lemmas for `calculateLimits` -/

lemma calcLimitState_isSome_iff (r1 r2 r3 r4 D : ℝ) :
    (calcLimitState r1 r2 r3 r4 D).isSome = true ↔
      ¬ |(r1 * r1 + r4 * r4 - D * D) / (2 * r1 * r4)| > 1 := by
  unfold calcLimitState
  dsimp only
  split_ifs with h <;> simp [h]

lemma calculateLimits_hasRockerLimits (config : MechanismConfig) :
    (calculateLimits config).hasRockerLimits =
      ((calcLimitState config.r1 config.r2 config.r3 config.r4 (config.r2 + config.r3)).isSome &&
       (calcLimitState config.r1 config.r2 config.r3 config.r4 |config.r2 - config.r3|).isSome) := by
  unfold calculateLimits
  dsimp only
  cases h1 : calcLimitState config.r1 config.r2 config.r3 config.r4 (config.r2 + config.r3) <;>
    cases h2 : calcLimitState config.r1 config.r2 config.r3 config.r4 |config.r2 - config.r3| <;>
    simp

lemma calculateLimits_transmission (config : MechanismConfig) :
    (calculateLimits config).transmissionMin =
      min (getTransAngle config.r3 config.r4 |config.r1 - config.r2|)
          (getTransAngle config.r3 config.r4 (config.r1 + config.r2)) ∧
    (calculateLimits config).transmissionMax =
      max (getTransAngle config.r3 config.r4 |config.r1 - config.r2|)
          (getTransAngle config.r3 config.r4 (config.r1 + config.r2)) := by
  unfold calculateLimits
  dsimp only
  cases calcLimitState config.r1 config.r2 config.r3 config.r4 (config.r2 + config.r3) <;>
    cases calcLimitState config.r1 config.r2 config.r3 config.r4 |config.r2 - config.r3| <;>
    simp

/-- C8 counterexample: at the crank-rocker configuration `(300, 100, 300, 200)`
both collinear extremes are reachable (`hasRockerLimits = true`), yet the
open-mode and crossed-mode limit analyses are identical — the analyzer never
reads `assemblyMode`, so the two modes do not produce different results. -/
theorem C8_mode_dependence_cx :
    (calculateLimits ⟨300, 100, 300, 200, 1⟩).hasRockerLimits = true ∧
    calculateLimits ⟨300, 100, 300, 200, 1⟩ = calculateLimits ⟨300, 100, 300, 200, -1⟩ := by
  constructor
  · rw [calculateLimits_hasRockerLimits]
    dsimp only
    rw [Bool.and_eq_true]
    constructor
    · rw [calcLimitState_isSome_iff]
      norm_num
      rw [abs_le]
      constructor <;> norm_num
    · rw [calcLimitState_isSome_iff]
      norm_num
      rw [abs_le]
      constructor <;> norm_num
  · rfl

/-- C8 amended: `calculateLimits` destructures only the four lengths, so its
result is entirely independent of the assembly mode; the sign/branch of the
limit `theta4` is always `π - γ`, for the open and the crossed mode alike. -/
theorem C8_limits_ignore_assembly_mode (r1 r2 r3 r4 : ℝ) (m m' : ℤ) :
    calculateLimits ⟨r1, r2, r3, r4, m⟩ = calculateLimits ⟨r1, r2, r3, r4, m'⟩ := rfl

/-! ### Arccos clamping facts -/

lemma arccos_of_one_le {x : ℝ} (h : 1 ≤ x) : Real.arccos x = 0 := by
  rw [Real.arccos_eq_pi_div_two_sub_arcsin, Real.arcsin_of_one_le h]
  ring

lemma arccos_of_le_neg_one {x : ℝ} (h : x ≤ -1) : Real.arccos x = Real.pi := by
  rw [Real.arccos_eq_pi_div_two_sub_arcsin, Real.arcsin_of_le_neg_one h]
  ring

/-- `Real.arccos` already clamps its argument, so composing it with the
source's explicit clamp changes nothing. -/
lemma arccos_clamp (v : ℝ) : Real.arccos (max (-1) (min 1 v)) = Real.arccos v := by
  rcases le_total v (-1) with h | h
  · rw [min_eq_right (h.trans (by norm_num)), max_eq_left h,
        arccos_of_le_neg_one le_rfl, arccos_of_le_neg_one h]
  · rcases le_total 1 v with h' | h'
    · rw [min_eq_left h', max_eq_right (by norm_num : (-1:ℝ) ≤ 1),
          arccos_of_one_le le_rfl, arccos_of_one_le h']
    · rw [min_eq_right h', max_eq_right h]

lemma arccos_antitone {x y : ℝ} (h : x ≤ y) : Real.arccos y ≤ Real.arccos x := by
  rw [Real.arccos_eq_pi_div_two_sub_arcsin, Real.arccos_eq_pi_div_two_sub_arcsin]
  have := Real.monotone_arcsin h
  linarith

lemma toDegrees_mono {x y : ℝ} (h : x ≤ y) : toDegrees x ≤ toDegrees y := by
  unfold toDegrees
  rw [div_le_div_right Real.pi_pos]
  linarith

lemma toDegrees_pi : toDegrees Real.pi = 180 := by
  unfold toDegrees
  rw [mul_comm, mul_div_assoc, div_self Real.pi_ne_zero, mul_one]

/-- The clamp in `getTransAngle` is absorbed by `arccos`. -/
lemma getTransAngle_eq (r3 r4 d : ℝ) :
    getTransAngle r3 r4 d =
      toDegrees (Real.arccos ((r3 * r3 + r4 * r4 - d * d) / (2 * r3 * r4))) := by
  unfold getTransAngle
  dsimp only
  rw [arccos_clamp]

lemma getTransAngle_of_le_neg_one (r3 r4 D : ℝ)
    (h : (r3 * r3 + r4 * r4 - D * D) / (2 * r3 * r4) ≤ -1) :
    getTransAngle r3 r4 D = 180 := by
  rw [getTransAngle_eq, arccos_of_le_neg_one h, toDegrees_pi]

/-- Law-of-cosines value at the folded coupler-rocker distance is exactly 1. -/
lemma lawcos_at_fold (r3 r4 : ℝ) (h3 : 0 < r3) (h4 : 0 < r4) :
    (r3 * r3 + r4 * r4 - |r3 - r4| * |r3 - r4|) / (2 * r3 * r4) = 1 := by
  rw [abs_mul_abs_self]
  rw [div_eq_one_iff_eq (by positivity)]
  ring

/-- Law-of-cosines value at the extended coupler-rocker distance is exactly -1. -/
lemma lawcos_at_ext (r3 r4 : ℝ) (h3 : 0 < r3) (h4 : 0 < r4) :
    (r3 * r3 + r4 * r4 - (r3 + r4) * (r3 + r4)) / (2 * r3 * r4) = -1 := by
  rw [div_eq_iff (by positivity : (2:ℝ) * r3 * r4 ≠ 0)]
  ring

/-- The law-of-cosines value is antitone in the distance (for nonnegative
distances and positive `r3, r4`). -/
lemma lawcos_antitone (r3 r4 d e : ℝ) (h3 : 0 < r3) (h4 : 0 < r4)
    (hd : 0 ≤ d) (hde : d ≤ e) :
    (r3 * r3 + r4 * r4 - e * e) / (2 * r3 * r4) ≤
      (r3 * r3 + r4 * r4 - d * d) / (2 * r3 * r4) := by
  rw [div_le_div_right (by positivity : (0:ℝ) < 2 * r3 * r4)]
  nlinarith

/-- C3 counterexample: at configuration `(10, 1, 1, 1)` the feasibility test
fails (`dMin = 9 > 2 = dMax`), yet the analyzer reports the perfectly numeric
transmission bounds `180` and `180` (the clamped `acos`), not a not-a-number
sentinel. -/
theorem C3_transmission_sentinel_cx :
    min ((10:ℝ) + 1) ((1:ℝ) + 1) < max |(10:ℝ) - 1| |(1:ℝ) - 1| ∧
    (calculateLimits ⟨10, 1, 1, 1, 1⟩).transmissionMin = 180 ∧
    (calculateLimits ⟨10, 1, 1, 1, 1⟩).transmissionMax = 180 := by
  refine ⟨?_, ?_, ?_⟩
  · norm_num
  · rw [(calculateLimits_transmission _).1]
    dsimp only
    rw [getTransAngle_of_le_neg_one _ _ _ (by norm_num),
        getTransAngle_of_le_neg_one _ _ _ (by norm_num)]
    norm_num
  · rw [(calculateLimits_transmission _).2]
    dsimp only
    rw [getTransAngle_of_le_neg_one _ _ _ (by norm_num),
        getTransAngle_of_le_neg_one _ _ _ (by norm_num)]
    norm_num

/-- C3 amended: for positive lengths the transmission bounds always equal the
law-of-cosines angle (in degrees, with the cosine clamped into `[-1,1]`
before `acos`) evaluated at `dMin = max(|r1-r2|, |r3-r4|)` and
`dMax = min(r1+r2, r3+r4)`; in particular when `dMin > dMax` the result is
still these numeric values (the clamp yields `acos(±1)`), never a
not-a-number sentinel. -/
theorem C3_transmission_limits_amended (r1 r2 r3 r4 : ℝ) (m : ℤ)
    (h1 : 0 < r1) (h2 : 0 < r2) (h3 : 0 < r3) (h4 : 0 < r4) :
    (calculateLimits ⟨r1, r2, r3, r4, m⟩).transmissionMin =
      toDegrees (Real.arccos ((r3 * r3 + r4 * r4 -
        max |r1 - r2| |r3 - r4| * max |r1 - r2| |r3 - r4|) / (2 * r3 * r4))) ∧
    (calculateLimits ⟨r1, r2, r3, r4, m⟩).transmissionMax =
      toDegrees (Real.arccos ((r3 * r3 + r4 * r4 -
        min (r1 + r2) (r3 + r4) * min (r1 + r2) (r3 + r4)) / (2 * r3 * r4))) := by
  obtain ⟨hTmin, hTmax⟩ := calculateLimits_transmission ⟨r1, r2, r3, r4, m⟩
  dsimp only at hTmin hTmax
  have habs_nonneg : 0 ≤ |r1 - r2| := abs_nonneg _
  have hd_le : |r1 - r2| ≤ r1 + r2 := by
    rw [abs_le]
    constructor <;> linarith
  have hvalBA := lawcos_antitone r3 r4 |r1 - r2| (r1 + r2) h3 h4 habs_nonneg hd_le
  have htAB : getTransAngle r3 r4 |r1 - r2| ≤ getTransAngle r3 r4 (r1 + r2) := by
    rw [getTransAngle_eq, getTransAngle_eq]
    exact toDegrees_mono (arccos_antitone hvalBA)
  rw [hTmin, hTmax, min_eq_left htAB, max_eq_right htAB, getTransAngle_eq, getTransAngle_eq]
  constructor
  · congr 1
    rcases le_total |r3 - r4| |r1 - r2| with hc | hc
    · rw [max_eq_left hc]
    · rw [max_eq_right hc]
      have hge : (1:ℝ) ≤ (r3 * r3 + r4 * r4 - |r1 - r2| * |r1 - r2|) / (2 * r3 * r4) := by
        have hmono := lawcos_antitone r3 r4 |r1 - r2| |r3 - r4| h3 h4 habs_nonneg hc
        rw [lawcos_at_fold r3 r4 h3 h4] at hmono
        exact hmono
      rw [arccos_of_one_le hge, lawcos_at_fold r3 r4 h3 h4, Real.arccos_one]
  · congr 1
    rcases le_total (r1 + r2) (r3 + r4) with hc | hc
    · rw [min_eq_left hc]
    · rw [min_eq_right hc]
      have hle : (r3 * r3 + r4 * r4 - (r1 + r2) * (r1 + r2)) / (2 * r3 * r4) ≤ -1 := by
        have hmono := lawcos_antitone r3 r4 (r3 + r4) (r1 + r2) h3 h4 (by positivity) hc
        rw [lawcos_at_ext r3 r4 h3 h4] at hmono
        exact hmono
      rw [arccos_of_le_neg_one hle, lawcos_at_ext r3 r4 h3 h4, Real.arccos_neg_one]

/-- Witness for the amended C3 at the configuration `(300, 100, 300, 200)`. -/
theorem C3_transmission_limits_amended_witness :
    ((0:ℝ) < 300 ∧ (0:ℝ) < 100 ∧ (0:ℝ) < 200) ∧
    ((calculateLimits ⟨300, 100, 300, 200, 1⟩).transmissionMin =
      toDegrees (Real.arccos (((300:ℝ) * 300 + 200 * 200 -
        max |(300:ℝ) - 100| |(300:ℝ) - 200| * max |(300:ℝ) - 100| |(300:ℝ) - 200|) /
        (2 * 300 * 200))) ∧
     (calculateLimits ⟨300, 100, 300, 200, 1⟩).transmissionMax =
      toDegrees (Real.arccos (((300:ℝ) * 300 + 200 * 200 -
        min ((300:ℝ) + 100) ((300:ℝ) + 200) * min ((300:ℝ) + 100) ((300:ℝ) + 200)) /
        (2 * 300 * 200)))) :=
  ⟨⟨by norm_num, by norm_num, by norm_num⟩,
   C3_transmission_limits_amended 300 100 300 200 1 (by norm_num) (by norm_num)
     (by norm_num) (by norm_num)⟩

/-- The extreme-triangle cosine at `O4` is within `[-1, 1]` exactly when the
distance `D` satisfies the triangle inequality against `r1, r4`. -/
lemma lawcos14_bounds (r1 r4 D : ℝ) (h1 : 0 < r1) (h4 : 0 < r4) (hD : 0 ≤ D)
    (hlo : |r1 - r4| ≤ D) (hhi : D ≤ r1 + r4) :
    |(r1 * r1 + r4 * r4 - D * D) / (2 * r1 * r4)| ≤ 1 := by
  obtain ⟨hl, hr⟩ := abs_le.mp hlo
  rw [abs_le]
  constructor
  · rw [le_div_iff (by positivity : (0:ℝ) < 2 * r1 * r4)]
    nlinarith [mul_nonneg (by linarith : (0:ℝ) ≤ r1 + r4 - D) (by linarith : (0:ℝ) ≤ r1 + r4 + D)]
  · rw [div_le_one (by positivity : (0:ℝ) < 2 * r1 * r4)]
    nlinarith [mul_nonneg (by linarith : (0:ℝ) ≤ D - (r1 - r4)) (by linarith : (0:ℝ) ≤ D + (r1 - r4))]

/-- C4 counterexample: `(300, 100, 300, 200)` is classified Crank-Rocker,
yet `hasRockerLimits` is `true` (both collinear extremes are reachable), so
`hasRockerLimits = false` does not hold "exactly for Crank-Rocker or
Double-Crank" topologies. -/
theorem C4_crank_rocker_has_limits_cx :
    getGrashofType ⟨300, 100, 300, 200, 1⟩ = GrashofType.CRANK_ROCKER ∧
    (calculateLimits ⟨300, 100, 300, 200, 1⟩).hasRockerLimits = true := by
  constructor
  · unfold getGrashofType
    dsimp only
    norm_num [min_def, max_def]
  · rw [calculateLimits_hasRockerLimits]
    dsimp only
    rw [Bool.and_eq_true]
    constructor
    · rw [calcLimitState_isSome_iff]
      norm_num
      rw [abs_le]
      constructor <;> norm_num
    · rw [calcLimitState_isSome_iff]
      norm_num
      rw [abs_le]
      constructor <;> norm_num

/-- C4 amended: for positive lengths, a Double-Crank (drag-link)
classification forces `hasRockerLimits = false` (the extended collinear
distance `r2 + r3` exceeds `r1 + r4`, so the extreme triangle cannot close),
while a Crank-Rocker classification forces `hasRockerLimits = true` (both
collinear extremes are reachable). -/
theorem C4_rocker_limits_by_type (r1 r2 r3 r4 : ℝ) (m : ℤ)
    (h1 : 0 < r1) (h2 : 0 < r2) (h3 : 0 < r3) (h4 : 0 < r4) :
    (getGrashofType ⟨r1, r2, r3, r4, m⟩ = GrashofType.DOUBLE_CRANK →
      (calculateLimits ⟨r1, r2, r3, r4, m⟩).hasRockerLimits = false) ∧
    (getGrashofType ⟨r1, r2, r3, r4, m⟩ = GrashofType.CRANK_ROCKER →
      (calculateLimits ⟨r1, r2, r3, r4, m⟩).hasRockerLimits = true) := by
  have hl1 : r1 ≤ r1 ⊔ r2 ⊔ (r3 ⊔ r4) := (le_max_left r1 r2).trans (le_max_left _ _)
  have hl2 : r2 ≤ r1 ⊔ r2 ⊔ (r3 ⊔ r4) := (le_max_right r1 r2).trans (le_max_left _ _)
  have hl3 : r3 ≤ r1 ⊔ r2 ⊔ (r3 ⊔ r4) := (le_max_left r3 r4).trans (le_max_right _ _)
  have hl4 : r4 ≤ r1 ⊔ r2 ⊔ (r3 ⊔ r4) := (le_max_right r3 r4).trans (le_max_right _ _)
  have hs1 : r1 ⊓ r2 ⊓ (r3 ⊓ r4) ≤ r1 := (min_le_left _ _).trans (min_le_left _ _)
  have hs2 : r1 ⊓ r2 ⊓ (r3 ⊓ r4) ≤ r2 := (min_le_left _ _).trans (min_le_right _ _)
  have hs3 : r1 ⊓ r2 ⊓ (r3 ⊓ r4) ≤ r3 := (min_le_right _ _).trans (min_le_left _ _)
  have hs4 : r1 ⊓ r2 ⊓ (r3 ⊓ r4) ≤ r4 := (min_le_right _ _).trans (min_le_right _ _)
  constructor
  · intro hdc
    unfold getGrashofType at hdc
    dsimp only at hdc
    split_ifs at hdc with hg hcp hr2 hr1
    all_goals try simp at hdc
    push_neg at hg
    have hstrict := lt_of_le_of_ne hg (fun he => hcp he)
    have hkey : r1 + r4 < r2 + r3 := by linarith
    have hcos_lt : (r1 * r1 + r4 * r4 - (r2 + r3) * (r2 + r3)) / (2 * r1 * r4) < -1 := by
      rw [div_lt_iff (by positivity : (0:ℝ) < 2 * r1 * r4)]
      nlinarith [mul_pos (sub_pos.mpr hkey) (by positivity : (0:ℝ) < r2 + r3 + (r1 + r4))]
    have hgt : |(r1 * r1 + r4 * r4 - (r2 + r3) * (r2 + r3)) / (2 * r1 * r4)| > 1 := by
      rw [gt_iff_lt, lt_abs]
      right
      linarith
    have hnone : calcLimitState r1 r2 r3 r4 (r2 + r3) = none := by
      unfold calcLimitState
      dsimp only
      rw [if_pos hgt]
    rw [calculateLimits_hasRockerLimits]
    dsimp only
    rw [hnone]
    simp
  · intro hcr
    unfold getGrashofType at hcr
    dsimp only at hcr
    split_ifs at hcr with hg hcp hr2
    all_goals try simp at hcr
    push_neg at hg
    have hstrict := lt_of_le_of_ne hg (fun he => hcp he)
    have hi1 : r2 + r3 < r1 + r4 := by linarith
    have hi2 : r1 - r4 ≤ r2 + r3 := by linarith
    have hi3 : r4 - r1 ≤ r2 + r3 := by linarith
    have hr23 : r2 ≤ r3 := by linarith
    have habs23 : |r2 - r3| = r3 - r2 := by
      rw [abs_sub_comm, abs_of_nonneg (by linarith)]
    have hi4 : r3 - r2 < r1 + r4 := by linarith
    have hi5 : r1 - r4 < r3 - r2 := by linarith
    have hi6 : r4 - r1 < r3 - r2 := by linarith
    have hsome1 : (calcLimitState r1 r2 r3 r4 (r2 + r3)).isSome = true := by
      rw [calcLimitState_isSome_iff]
      exact not_lt.mpr (lawcos14_bounds r1 r4 (r2 + r3) h1 h4 (by positivity)
        (abs_le.mpr ⟨by linarith, hi2⟩) hi1.le)
    have hsome2 : (calcLimitState r1 r2 r3 r4 |r2 - r3|).isSome = true := by
      rw [calcLimitState_isSome_iff]
      rw [habs23]
      exact not_lt.mpr (lawcos14_bounds r1 r4 (r3 - r2) h1 h4 (by linarith)
        (abs_le.mpr ⟨by linarith, hi5.le⟩) hi4.le)
    rw [calculateLimits_hasRockerLimits]
    dsimp only
    rw [Bool.and_eq_true]
    exact ⟨hsome1, hsome2⟩

/-- Witness for the amended C4 at the drag-link configuration `(2, 6, 8, 7)`
(shortest link is the ground `r1`, strict Grashof). -/
theorem C4_rocker_limits_by_type_witness :
    ((0:ℝ) < 2 ∧ (0:ℝ) < 6 ∧ (0:ℝ) < 8 ∧ (0:ℝ) < 7) ∧
    ((getGrashofType ⟨2, 6, 8, 7, 1⟩ = GrashofType.DOUBLE_CRANK →
      (calculateLimits ⟨2, 6, 8, 7, 1⟩).hasRockerLimits = false) ∧
     (getGrashofType ⟨2, 6, 8, 7, 1⟩ = GrashofType.CRANK_ROCKER →
      (calculateLimits ⟨2, 6, 8, 7, 1⟩).hasRockerLimits = true)) :=
  ⟨⟨by norm_num, by norm_num, by norm_num, by norm_num⟩,
   C4_rocker_limits_by_type 2 6 8 7 1 (by norm_num) (by norm_num) (by norm_num) (by norm_num)⟩

/-! ### Structural lemmas for `solveInverseTheta2` -/

/-- The inverse solver's unreachability gate, by name. -/
noncomputable def invGate (config : MechanismConfig) (targetTheta4 : ℝ) : Prop :=
  Real.sqrt ((config.r1 + config.r4 * Real.cos targetTheta4) *
      (config.r1 + config.r4 * Real.cos targetTheta4) +
      config.r4 * Real.sin targetTheta4 * (config.r4 * Real.sin targetTheta4)) >
    config.r2 + config.r3 ∨
  Real.sqrt ((config.r1 + config.r4 * Real.cos targetTheta4) *
      (config.r1 + config.r4 * Real.cos targetTheta4) +
      config.r4 * Real.sin targetTheta4 * (config.r4 * Real.sin targetTheta4)) <
    |config.r2 - config.r3|

lemma invDist_eq_distance (config : MechanismConfig) (t : ℝ) :
    Real.sqrt ((config.r1 + config.r4 * Real.cos t) * (config.r1 + config.r4 * Real.cos t) +
      config.r4 * Real.sin t * (config.r4 * Real.sin t)) =
    distance ⟨0, 0⟩ ⟨config.r1 + config.r4 * Real.cos t, config.r4 * Real.sin t⟩ := by
  unfold distance
  congr 1
  ring

lemma solveInverseTheta2_of_gate (config : MechanismConfig) (t : ℝ)
    (h : invGate config t) : solveInverseTheta2 config t = none := by
  unfold invGate at h
  rw [solveInverseTheta2, if_pos h]

lemma solveInverseTheta2_of_not_gate (config : MechanismConfig) (t : ℝ)
    (h : ¬ invGate config t) :
    solveInverseTheta2 config t =
      some (atan2 (inverseCandidateA config t).y (inverseCandidateA config t).x) := by
  unfold invGate at h
  rw [solveInverseTheta2, if_neg h]

lemma solveInverseTheta2_eq_none_iff (config : MechanismConfig) (t : ℝ) :
    solveInverseTheta2 config t = none ↔ invGate config t := by
  constructor
  · intro h
    by_contra hg
    rw [solveInverseTheta2_of_not_gate config t hg] at h
    simp at h
  · exact solveInverseTheta2_of_gate config t

/-- When the gate passes and the distance `|O2 B|` is nonzero, the candidate
crank tip constructed by the inverse solver is a genuine intersection point:
it lies on `Circle(O2, r2)` and on `Circle(B, r3)`. -/
lemma inverseCandidateA_dists (config : MechanismConfig) (t : ℝ)
    (h2 : 0 ≤ config.r2) (h3 : 0 ≤ config.r3)
    (hg : ¬ invGate config t)
    (hne : distance ⟨0, 0⟩ ⟨config.r1 + config.r4 * Real.cos t, config.r4 * Real.sin t⟩ ≠ 0) :
    distance ⟨0, 0⟩ (inverseCandidateA config t) = config.r2 ∧
    distance ⟨config.r1 + config.r4 * Real.cos t, config.r4 * Real.sin t⟩
      (inverseCandidateA config t) = config.r3 := by
  unfold invGate at hg
  push_neg at hg
  obtain ⟨hhi, hlo⟩ := hg
  simp only [inverseCandidateA]
  have hDnn : (0:ℝ) ≤ (config.r1 + config.r4 * Real.cos t) * (config.r1 + config.r4 * Real.cos t) +
      config.r4 * Real.sin t * (config.r4 * Real.sin t) := by
    nlinarith [sq_nonneg (config.r1 + config.r4 * Real.cos t), sq_nonneg (config.r4 * Real.sin t)]
  rw [← invDist_eq_distance config t] at hne
  set Bx := config.r1 + config.r4 * Real.cos t with hBx
  set By := config.r4 * Real.sin t with hBy
  set D := Real.sqrt (Bx * Bx + By * By) with hD
  have hd0 : 0 < D := lt_of_le_of_ne (Real.sqrt_nonneg _) (Ne.symm hne)
  have hw : Bx * Bx + By * By = D * D := (Real.mul_self_sqrt hDnn).symm
  set a := (config.r2 * config.r2 - config.r3 * config.r3 + D * D) / (2 * D) with ha_def
  have ha : 2 * D * a = config.r2 * config.r2 - config.r3 * config.r3 + D * D := by
    rw [ha_def]
    field_simp
  have hnn : 0 ≤ config.r2 * config.r2 - a * a := by
    have hr := radical_sq_nonneg config.r2 config.r3 D hd0 hlo hhi
    rw [ha_def]
    nlinarith [hr]
  set h := Real.sqrt (max 0 (config.r2 * config.r2 - a * a)) with hh_def
  have hh : h * h = config.r2 * config.r2 - a * a := by
    rw [hh_def, max_eq_right hnn]
    exact Real.mul_self_sqrt hnn
  have main := intersect_point_dists 0 0 Bx By D a h config.r2 config.r3 hd0 hw ha hh h2 h3
  have eB : (⟨0 + Bx, 0 + By⟩ : Point) = ⟨Bx, By⟩ := by
    congr 1 <;> ring
  rw [eB] at main
  constructor
  · have ept : (⟨0 + a * (Bx - 0) / D + h * (By - 0) / D,
        0 + a * (By - 0) / D - h * (Bx - 0) / D⟩ : Point) =
        ⟨0 + a * Bx / D + h * By / D, 0 + a * By / D - h * Bx / D⟩ := by
      congr 1 <;> ring
    rw [ept]
    exact main.1
  · have ept : (⟨0 + a * (Bx - 0) / D + h * (By - 0) / D,
        0 + a * (By - 0) / D - h * (Bx - 0) / D⟩ : Point) =
        ⟨0 + a * Bx / D + h * By / D, 0 + a * By / D - h * Bx / D⟩ := by
      congr 1 <;> ring
    rw [ept]
    exact main.2

/-- C6 amended: the inverse solver returns `none` exactly when
`d = |O2 B|` violates the triangle inequality against `r2, r3`; in every
other case it returns `atan2` of the fixed candidate branch, and — provided
`d ≠ 0` — that candidate is a genuine point of the circle-circle
intersection of `Circle(O2, r2)` and `Circle(B, r3)`.  (At `d = 0`, possible
only when `r2 = r3` and `B = O2`, the construction divides by zero and the
returned candidate is not on the circles.) -/
theorem C6_inverse_solver (config : MechanismConfig) (t4 : ℝ)
    (h2 : 0 < config.r2) (h3 : 0 < config.r3) :
    (solveInverseTheta2 config t4 = none ↔
      (distance ⟨0, 0⟩ ⟨config.r1 + config.r4 * Real.cos t4, config.r4 * Real.sin t4⟩ >
        config.r2 + config.r3 ∨
       distance ⟨0, 0⟩ ⟨config.r1 + config.r4 * Real.cos t4, config.r4 * Real.sin t4⟩ <
        |config.r2 - config.r3|)) ∧
    (¬ (distance ⟨0, 0⟩ ⟨config.r1 + config.r4 * Real.cos t4, config.r4 * Real.sin t4⟩ >
        config.r2 + config.r3 ∨
        distance ⟨0, 0⟩ ⟨config.r1 + config.r4 * Real.cos t4, config.r4 * Real.sin t4⟩ <
        |config.r2 - config.r3|) →
      solveInverseTheta2 config t4 =
        some (atan2 (inverseCandidateA config t4).y (inverseCandidateA config t4).x)) ∧
    (¬ (distance ⟨0, 0⟩ ⟨config.r1 + config.r4 * Real.cos t4, config.r4 * Real.sin t4⟩ >
        config.r2 + config.r3 ∨
        distance ⟨0, 0⟩ ⟨config.r1 + config.r4 * Real.cos t4, config.r4 * Real.sin t4⟩ <
        |config.r2 - config.r3|) →
      distance ⟨0, 0⟩ ⟨config.r1 + config.r4 * Real.cos t4, config.r4 * Real.sin t4⟩ ≠ 0 →
      distance ⟨0, 0⟩ (inverseCandidateA config t4) = config.r2 ∧
      distance ⟨config.r1 + config.r4 * Real.cos t4, config.r4 * Real.sin t4⟩
        (inverseCandidateA config t4) = config.r3) := by
  have hgate_iff : invGate config t4 ↔
      (distance ⟨0, 0⟩ ⟨config.r1 + config.r4 * Real.cos t4, config.r4 * Real.sin t4⟩ >
        config.r2 + config.r3 ∨
       distance ⟨0, 0⟩ ⟨config.r1 + config.r4 * Real.cos t4, config.r4 * Real.sin t4⟩ <
        |config.r2 - config.r3|) := by
    unfold invGate
    rw [invDist_eq_distance]
  refine ⟨?_, ?_, ?_⟩
  · rw [solveInverseTheta2_eq_none_iff, hgate_iff]
  · intro hng
    exact solveInverseTheta2_of_not_gate config t4 (fun hg => hng (hgate_iff.mp hg))
  · intro hng hne
    exact inverseCandidateA_dists config t4 h2.le h3.le (fun hg => hng (hgate_iff.mp hg)) hne

/-- Witness for C6 at configuration `(300, 100, 300, 200)` and target output
angle `π/2`: `B = (300, 200)`, `d = √130000 ∈ [200, 400]`, so the solver
returns the candidate branch angle and the candidate lies on `Circle(O2, 100)`. -/
theorem C6_inverse_solver_witness :
    solveInverseTheta2 ⟨300, 100, 300, 200, 1⟩ (Real.pi / 2) =
      some (atan2 (inverseCandidateA ⟨300, 100, 300, 200, 1⟩ (Real.pi / 2)).y
        (inverseCandidateA ⟨300, 100, 300, 200, 1⟩ (Real.pi / 2)).x) ∧
    distance ⟨0, 0⟩ (inverseCandidateA ⟨300, 100, 300, 200, 1⟩ (Real.pi / 2)) = 100 := by
  have hB : distance ⟨0, 0⟩ ⟨(300:ℝ) + 200 * Real.cos (Real.pi / 2),
      (200:ℝ) * Real.sin (Real.pi / 2)⟩ = Real.sqrt 130000 := by
    unfold distance
    rw [Real.cos_pi_div_two, Real.sin_pi_div_two]
    norm_num
  have hng : ¬ (distance ⟨0, 0⟩ ⟨(300:ℝ) + 200 * Real.cos (Real.pi / 2),
      (200:ℝ) * Real.sin (Real.pi / 2)⟩ > (100:ℝ) + 300 ∨
      distance ⟨0, 0⟩ ⟨(300:ℝ) + 200 * Real.cos (Real.pi / 2),
      (200:ℝ) * Real.sin (Real.pi / 2)⟩ < |(100:ℝ) - 300|) := by
    rw [hB]
    push_neg
    constructor
    · exact sqrt_le_of_sq _ _ (by norm_num) (by norm_num)
    · have h200 : |(100:ℝ) - 300| = 200 := by norm_num
      rw [h200]
      exact le_sqrt_of_sq _ _ (by norm_num) (by norm_num)
  have hne : distance ⟨0, 0⟩ ⟨(300:ℝ) + 200 * Real.cos (Real.pi / 2),
      (200:ℝ) * Real.sin (Real.pi / 2)⟩ ≠ 0 := by
    rw [hB]
    exact (Real.sqrt_pos.mpr (by norm_num)).ne'
  have H := C6_inverse_solver ⟨300, 100, 300, 200, 1⟩ (Real.pi / 2) (by norm_num) (by norm_num)
  exact ⟨H.2.1 hng, (H.2.2 hng hne).1⟩

/-- C6 counterexample: at `(r1, r2, r3, r4) = (1, 2, 2, 1)` and target angle
`π`, the point `B` coincides with `O2`, the gate still passes
(`d = 0 = |r2 - r3|` is not `< 0`), and the solver returns the angle `0` of
the junk candidate `(0, 0)` — a point at distance `0`, not `r2 = 2`, from
`O2`, so not a branch of the circle-circle intersection (the implementation
divides by zero here). -/
theorem C6_concentric_divzero_cx :
    solveInverseTheta2 ⟨1, 2, 2, 1, 1⟩ Real.pi = some 0 ∧
    inverseCandidateA ⟨1, 2, 2, 1, 1⟩ Real.pi = ⟨0, 0⟩ ∧
    distance ⟨0, 0⟩ (inverseCandidateA ⟨1, 2, 2, 1, 1⟩ Real.pi) = 0 := by
  have hA1 : inverseCandidateA ⟨1, 2, 2, 1, 1⟩ Real.pi = ⟨0, 0⟩ := by
    simp only [inverseCandidateA]
    rw [Real.cos_pi, Real.sin_pi]
    norm_num [Point.mk.injEq, Real.sqrt_zero]
  have hmain : solveInverseTheta2 ⟨1, 2, 2, 1, 1⟩ Real.pi =
      some (atan2 (inverseCandidateA ⟨1, 2, 2, 1, 1⟩ Real.pi).y
        (inverseCandidateA ⟨1, 2, 2, 1, 1⟩ Real.pi).x) := by
    apply solveInverseTheta2_of_not_gate
    unfold invGate
    rw [Real.cos_pi, Real.sin_pi]
    push_neg
    norm_num [Real.sqrt_zero]
  rw [hA1] at hmain
  refine ⟨?_, hA1, ?_⟩
  · rw [hmain]
    dsimp only
    rw [atan2_zero_zero]
  · rw [hA1]
    unfold distance
    norm_num [Real.sqrt_zero]

/-! ### Round-trip analysis (C5) -/

lemma Point.ext' {p q : Point} (hx : p.x = q.x) (hy : p.y = q.y) : p = q := by
  cases p
  cases q
  cases hx
  cases hy
  rfl

/-- C5 counterexample: fully degenerate rhombus `(1, 1, 1, 1)` in crossed
mode at `theta2 = π/2`.  The forward solve is valid with `B = (1, 1)` and
`theta4 = π/2`, but the inverse solver's fixed branch lands exactly on the
pivot `O4 = (1, 0)`, so the returned crank angle is `0` — and the forward
solve at `0` is invalid with the sentinel `B = (0, 0)` in both assembly
modes: no mode reproduces `B`. -/
theorem C5_roundtrip_cx :
    (solveFourBar ⟨1, 1, 1, 1, -1⟩ (Real.pi / 2)).isValid = true ∧
    (solveFourBar ⟨1, 1, 1, 1, -1⟩ (Real.pi / 2)).B = ⟨1, 1⟩ ∧
    solveInverseTheta2 ⟨1, 1, 1, 1, -1⟩
      ((solveFourBar ⟨1, 1, 1, 1, -1⟩ (Real.pi / 2)).theta4) = some 0 ∧
    ((solveFourBar ⟨1, 1, 1, 1, 1⟩ 0).isValid = false ∧
     (solveFourBar ⟨1, 1, 1, 1, 1⟩ 0).B = ⟨0, 0⟩) ∧
    ((solveFourBar ⟨1, 1, 1, 1, -1⟩ 0).isValid = false ∧
     (solveFourBar ⟨1, 1, 1, 1, -1⟩ 0).B = ⟨0, 0⟩) := by
  have hs2 : Real.sqrt 2 * Real.sqrt 2 = 2 := Real.mul_self_sqrt (by norm_num)
  have hs0 : (0:ℝ) < Real.sqrt 2 := Real.sqrt_pos.mpr (by norm_num)
  have ha : ((1:ℝ) * 1 - 1 * 1 + Real.sqrt 2 * Real.sqrt 2) / (2 * Real.sqrt 2) =
      Real.sqrt 2 / 2 := by
    rw [div_eq_div_iff (by positivity : (0:ℝ) < 2 * Real.sqrt 2).ne' (by norm_num : (2:ℝ) ≠ 0)]
    ring
  have hh : Real.sqrt (max 0 ((1:ℝ) * 1 - Real.sqrt 2 / 2 * (Real.sqrt 2 / 2))) =
      Real.sqrt 2 / 2 := by
    have harg : (1:ℝ) * 1 - Real.sqrt 2 / 2 * (Real.sqrt 2 / 2) = 1 / 2 := by
      linear_combination (-1/4 : ℝ) * hs2
    rw [harg, max_eq_right (by norm_num)]
    apply sqrt_eq_of_sq _ _ (by positivity)
    rw [div_pow, Real.sq_sqrt (by norm_num : (0:ℝ) ≤ 2)]
    norm_num
  have hdist : distance (calculateA (⟨1, 1, 1, 1, -1⟩ : MechanismConfig).r2 (Real.pi / 2))
      ⟨(⟨1, 1, 1, 1, -1⟩ : MechanismConfig).r1, 0⟩ = Real.sqrt 2 := by
    unfold calculateA distance
    rw [Real.cos_pi_div_two, Real.sin_pi_div_two]
    norm_num
  have hgate : ¬ fwdGate ⟨1, 1, 1, 1, -1⟩ (Real.pi / 2) := by
    unfold fwdGate
    rw [hdist]
    push_neg
    refine ⟨?_, ?_, hs0.ne'⟩
    · dsimp only
      exact sqrt_le_of_sq _ _ (by norm_num) (by norm_num)
    · dsimp only
      norm_num
  have hB2 : fwdB2 ⟨1, 1, 1, 1, -1⟩ (Real.pi / 2) = ⟨1, 1⟩ := by
    simp only [fwdB2]
    rw [hdist]
    unfold calculateA
    rw [Real.cos_pi_div_two, Real.sin_pi_div_two]
    dsimp only
    rw [ha, hh]
    apply Point.ext'
    · dsimp only
      field_simp
      ring
    · dsimp only
      field_simp
  have hBval : (solveFourBar ⟨1, 1, 1, 1, -1⟩ (Real.pi / 2)).B = ⟨1, 1⟩ := by
    rw [solveFourBar_of_not_gate _ _ hgate]
    rw [if_neg (by decide : ¬ ((⟨1, 1, 1, 1, -1⟩ : MechanismConfig).assemblyMode = 1)), hB2]
  have hvalid : (solveFourBar ⟨1, 1, 1, 1, -1⟩ (Real.pi / 2)).isValid = true := by
    rw [solveFourBar_of_not_gate _ _ hgate]
  have htheta4 : (solveFourBar ⟨1, 1, 1, 1, -1⟩ (Real.pi / 2)).theta4 = Real.pi / 2 := by
    rw [solveFourBar_of_not_gate _ _ hgate]
    show atan2 _ _ = _
    rw [if_neg (by decide : ¬ ((⟨1, 1, 1, 1, -1⟩ : MechanismConfig).assemblyMode = 1)), hB2]
    norm_num
    exact atan2_one_zero
  have hA1 : inverseCandidateA ⟨1, 1, 1, 1, -1⟩ (Real.pi / 2) = ⟨1, 0⟩ := by
    simp only [inverseCandidateA]
    rw [Real.cos_pi_div_two, Real.sin_pi_div_two]
    norm_num
    have ha' : (2:ℝ) / (2 * Real.sqrt 2) = Real.sqrt 2 / 2 := by
      rw [div_eq_div_iff (by positivity : (0:ℝ) < 2 * Real.sqrt 2).ne' (by norm_num : (2:ℝ) ≠ 0)]
      linear_combination (-2 : ℝ) * hs2
    rw [ha']
    have harg : (1:ℝ) - Real.sqrt 2 / 2 * (Real.sqrt 2 / 2) = 1 / 2 := by
      linear_combination (-1/4 : ℝ) * hs2
    rw [harg, max_eq_right (by norm_num : (0:ℝ) ≤ 1/2)]
    have hhalf : Real.sqrt (1/2 : ℝ) = Real.sqrt 2 / 2 := by
      apply sqrt_eq_of_sq _ _ (by positivity)
      rw [div_pow, Real.sq_sqrt (by norm_num : (0:ℝ) ≤ 2)]
      norm_num
    rw [hhalf]
    constructor
    · field_simp
      ring
    · field_simp
  have hinv : solveInverseTheta2 ⟨1, 1, 1, 1, -1⟩ (Real.pi / 2) = some 0 := by
    have hng : ¬ invGate ⟨1, 1, 1, 1, -1⟩ (Real.pi / 2) := by
      unfold invGate
      rw [Real.cos_pi_div_two, Real.sin_pi_div_two]
      dsimp only
      push_neg
      norm_num
      exact sqrt_le_of_sq _ _ (by norm_num) (by norm_num)
    rw [solveInverseTheta2_of_not_gate _ _ hng, hA1]
    dsimp only
    rw [atan2_zero_one]
  have hgate0 : ∀ m : ℤ, fwdGate ⟨1, 1, 1, 1, m⟩ 0 := by
    intro m
    unfold fwdGate
    refine Or.inr (Or.inr ?_)
    unfold calculateA distance
    rw [Real.cos_zero, Real.sin_zero]
    dsimp only
    norm_num
  refine ⟨hvalid, hBval, ?_, ?_, ?_⟩
  · rw [htheta4]
    exact hinv
  · rw [solveFourBar_of_gate _ _ (hgate0 1)]
    exact ⟨rfl, rfl⟩
  · rw [solveFourBar_of_gate _ _ (hgate0 (-1))]
    exact ⟨rfl, rfl⟩

/-- C5 amended: for a valid forward state with positive lengths, the inverse
solver applied to the state's `theta4` always returns an angle (never
`none`), and — provided `B ≠ O2` and the inverse candidate is not the pivot
`O4` (the two division-by-zero coincidences, as in the counterexample) — the
forward solve at the returned angle is valid and reproduces the same `B`
exactly, for one of the two assembly modes. -/
theorem C5_roundtrip_amended (config : MechanismConfig) (theta2 : ℝ)
    (h1 : 0 < config.r1) (h2 : 0 < config.r2) (h3 : 0 < config.r3) (h4 : 0 < config.r4)
    (hv : (solveFourBar config theta2).isValid = true)
    (hB0 : (solveFourBar config theta2).B ≠ ⟨0, 0⟩)
    (hA1O4 : inverseCandidateA config ((solveFourBar config theta2).theta4) ≠ ⟨config.r1, 0⟩) :
    ∃ t : ℝ, solveInverseTheta2 config ((solveFourBar config theta2).theta4) = some t ∧
      ∃ m : ℤ, (m = 1 ∨ m = -1) ∧
        (solveFourBar ⟨config.r1, config.r2, config.r3, config.r4, m⟩ t).isValid = true ∧
        (solveFourBar ⟨config.r1, config.r2, config.r3, config.r4, m⟩ t).B =
          (solveFourBar config theta2).B := by
  have hg : ¬ fwdGate config theta2 := by
    intro hgate
    rw [solveFourBar_of_gate config theta2 hgate] at hv
    simp at hv
  obtain ⟨⟨dAB1, dO4B1⟩, ⟨dAB2, dO4B2⟩⟩ := fwdB_dists config theta2 h3.le h4.le hg
  have hstB : (solveFourBar config theta2).B =
      (if config.assemblyMode = 1 then fwdB1 config theta2 else fwdB2 config theta2) := by
    rw [solveFourBar_of_not_gate config theta2 hg]
  have hdAB : distance (calculateA config.r2 theta2) ((solveFourBar config theta2).B) =
      config.r3 := by
    rw [hstB]
    split
    · exact dAB1
    · exact dAB2
  have hdO4B : distance ⟨config.r1, 0⟩ ((solveFourBar config theta2).B) = config.r4 := by
    rw [hstB]
    split
    · exact dO4B1
    · exact dO4B2
  have hdO2A : distance ⟨0, 0⟩ (calculateA config.r2 theta2) = config.r2 :=
    distance_origin_calculateA _ _ h2.le
  have hstTheta4 : (solveFourBar config theta2).theta4 =
      atan2 ((solveFourBar config theta2).B.y - 0)
        ((solveFourBar config theta2).B.x - config.r1) := by
    rw [solveFourBar_of_not_gate config theta2 hg]
  have hB4sq : ((solveFourBar config theta2).B.x - config.r1) ^ 2 +
      ((solveFourBar config theta2).B.y - 0) ^ 2 = config.r4 ^ 2 := by
    have h' : distance ⟨config.r1, 0⟩ ((solveFourBar config theta2).B) ^ 2 =
        ((solveFourBar config theta2).B.x - config.r1) ^ 2 +
        ((solveFourBar config theta2).B.y - 0) ^ 2 :=
      distance_sq _ _
    rw [hdO4B] at h'
    exact h'.symm
  have hrecon := atan2_cos_sin ((solveFourBar config theta2).B.x - config.r1)
    ((solveFourBar config theta2).B.y - 0) config.r4 h4 hB4sq
  rw [← hstTheta4] at hrecon
  have hBpt : (⟨config.r1 + config.r4 * Real.cos ((solveFourBar config theta2).theta4),
      config.r4 * Real.sin ((solveFourBar config theta2).theta4)⟩ : Point) =
      (solveFourBar config theta2).B := by
    apply Point.ext'
    · dsimp only
      linarith [hrecon.1]
    · dsimp only
      linarith [hrecon.2]
  have hdO2B_le : distance ⟨0, 0⟩ ((solveFourBar config theta2).B) ≤
      config.r2 + config.r3 := by
    have htr := distance_triangle ⟨0, 0⟩ (calculateA config.r2 theta2)
      ((solveFourBar config theta2).B)
    rw [hdO2A, hdAB] at htr
    exact htr
  have hdO2B_ge : |config.r2 - config.r3| ≤
      distance ⟨0, 0⟩ ((solveFourBar config theta2).B) := by
    have h' := abs_distance_sub_le ⟨0, 0⟩ ((solveFourBar config theta2).B)
      (calculateA config.r2 theta2)
    rw [hdO2A, distance_comm ((solveFourBar config theta2).B) (calculateA config.r2 theta2),
      hdAB] at h'
    exact h'
  have hdO2B_ne : distance ⟨0, 0⟩ ((solveFourBar config theta2).B) ≠ 0 := by
    intro h0
    obtain ⟨hx, hy⟩ := (distance_eq_zero_iff _ _).mp h0
    exact hB0 (Point.ext' hx hy)
  have hng : ¬ invGate config ((solveFourBar config theta2).theta4) := by
    unfold invGate
    rw [invDist_eq_distance, hBpt]
    push_neg
    exact ⟨hdO2B_le, hdO2B_ge⟩
  have hsome := solveInverseTheta2_of_not_gate config ((solveFourBar config theta2).theta4) hng
  set A1 := inverseCandidateA config ((solveFourBar config theta2).theta4) with hA1_def
  have hA1d : distance ⟨0, 0⟩ A1 = config.r2 ∧
      distance ((solveFourBar config theta2).B) A1 = config.r3 := by
    have h' := inverseCandidateA_dists config ((solveFourBar config theta2).theta4)
      h2.le h3.le hng (by rw [hBpt]; exact hdO2B_ne)
    rw [hBpt] at h'
    exact h'
  have hA1sq : A1.x ^ 2 + A1.y ^ 2 = config.r2 ^ 2 := by
    have h' : distance ⟨0, 0⟩ A1 ^ 2 = (A1.x - 0) ^ 2 + (A1.y - 0) ^ 2 := distance_sq _ _
    rw [hA1d.1] at h'
    linear_combination h'.symm
  have hreconA := atan2_cos_sin A1.x A1.y config.r2 h2 hA1sq
  have hcalcA : calculateA config.r2 (atan2 A1.y A1.x) = A1 := by
    apply Point.ext'
    · exact hreconA.1
    · exact hreconA.2
  have hdA1B : distance A1 ((solveFourBar config theta2).B) = config.r3 := by
    rw [distance_comm]
    exact hA1d.2
  have hdA1O4_le : distance A1 ⟨config.r1, 0⟩ ≤ config.r3 + config.r4 := by
    have htr := distance_triangle A1 ((solveFourBar config theta2).B) ⟨config.r1, 0⟩
    rw [hdA1B, distance_comm ((solveFourBar config theta2).B) (⟨config.r1, 0⟩ : Point),
      hdO4B] at htr
    exact htr
  have hdA1O4_ge : |config.r3 - config.r4| ≤ distance A1 ⟨config.r1, 0⟩ := by
    have h' := abs_distance_sub_le A1 (⟨config.r1, 0⟩ : Point) ((solveFourBar config theta2).B)
    rw [hdA1B, hdO4B] at h'
    exact h'
  have hdA1O4_ne : distance A1 ⟨config.r1, 0⟩ ≠ 0 := by
    intro h0
    obtain ⟨hx, hy⟩ := (distance_eq_zero_iff _ _).mp h0
    exact hA1O4 (Point.ext' hx.symm hy.symm)
  have hdA1O4_pos : 0 < distance A1 ⟨config.r1, 0⟩ :=
    lt_of_le_of_ne (distance_nonneg _ _) (Ne.symm hdA1O4_ne)
  have hg' : ∀ m : ℤ, ¬ fwdGate ⟨config.r1, config.r2, config.r3, config.r4, m⟩
      (atan2 A1.y A1.x) := by
    intro m
    unfold fwdGate
    dsimp only
    rw [hcalcA]
    push_neg
    exact ⟨hdA1O4_le, hdA1O4_ge, hdA1O4_ne⟩
  have hw : (config.r1 - A1.x) * (config.r1 - A1.x) + (0 - A1.y) * (0 - A1.y) =
      distance A1 ⟨config.r1, 0⟩ * distance A1 ⟨config.r1, 0⟩ := by
    have h' : distance A1 ⟨config.r1, 0⟩ ^ 2 = (config.r1 - A1.x) ^ 2 + (0 - A1.y) ^ 2 :=
      distance_sq _ _
    linear_combination h'.symm
  have ha : 2 * distance A1 ⟨config.r1, 0⟩ *
      ((config.r3 * config.r3 - config.r4 * config.r4 +
        distance A1 ⟨config.r1, 0⟩ * distance A1 ⟨config.r1, 0⟩) /
        (2 * distance A1 ⟨config.r1, 0⟩)) =
      config.r3 * config.r3 - config.r4 * config.r4 +
        distance A1 ⟨config.r1, 0⟩ * distance A1 ⟨config.r1, 0⟩ := by
    field_simp
  have hp1 : ((solveFourBar config theta2).B.x - A1.x) ^ 2 +
      ((solveFourBar config theta2).B.y - A1.y) ^ 2 = config.r3 * config.r3 := by
    have h' : distance A1 ((solveFourBar config theta2).B) ^ 2 =
        ((solveFourBar config theta2).B.x - A1.x) ^ 2 +
        ((solveFourBar config theta2).B.y - A1.y) ^ 2 :=
      distance_sq _ _
    rw [hdA1B] at h'
    linear_combination h'.symm
  have hp2 : ((solveFourBar config theta2).B.x - (A1.x + (config.r1 - A1.x))) ^ 2 +
      ((solveFourBar config theta2).B.y - (A1.y + (0 - A1.y))) ^ 2 =
      config.r4 * config.r4 := by
    have h' : distance ⟨config.r1, 0⟩ ((solveFourBar config theta2).B) ^ 2 =
        ((solveFourBar config theta2).B.x - config.r1) ^ 2 +
        ((solveFourBar config theta2).B.y - 0) ^ 2 :=
      distance_sq _ _
    rw [hdO4B] at h'
    linear_combination h'.symm
  have hcomplete := intersect_point_complete A1.x A1.y (config.r1 - A1.x) (0 - A1.y)
    ((solveFourBar config theta2).B.x) ((solveFourBar config theta2).B.y)
    (distance A1 ⟨config.r1, 0⟩)
    ((config.r3 * config.r3 - config.r4 * config.r4 +
      distance A1 ⟨config.r1, 0⟩ * distance A1 ⟨config.r1, 0⟩) /
      (2 * distance A1 ⟨config.r1, 0⟩))
    (Real.sqrt (max 0 (config.r3 * config.r3 -
      (config.r3 * config.r3 - config.r4 * config.r4 +
        distance A1 ⟨config.r1, 0⟩ * distance A1 ⟨config.r1, 0⟩) /
        (2 * distance A1 ⟨config.r1, 0⟩) *
      ((config.r3 * config.r3 - config.r4 * config.r4 +
        distance A1 ⟨config.r1, 0⟩ * distance A1 ⟨config.r1, 0⟩) /
        (2 * distance A1 ⟨config.r1, 0⟩)))))
    config.r3 hdA1O4_pos hw ha rfl hp1 hp2
  have eB1 : fwdB1 ⟨config.r1, config.r2, config.r3, config.r4, 1⟩ (atan2 A1.y A1.x) =
      ⟨A1.x + (config.r3 * config.r3 - config.r4 * config.r4 +
          distance A1 ⟨config.r1, 0⟩ * distance A1 ⟨config.r1, 0⟩) /
          (2 * distance A1 ⟨config.r1, 0⟩) * (config.r1 - A1.x) / distance A1 ⟨config.r1, 0⟩ +
        Real.sqrt (max 0 (config.r3 * config.r3 -
          (config.r3 * config.r3 - config.r4 * config.r4 +
            distance A1 ⟨config.r1, 0⟩ * distance A1 ⟨config.r1, 0⟩) /
            (2 * distance A1 ⟨config.r1, 0⟩) *
          ((config.r3 * config.r3 - config.r4 * config.r4 +
            distance A1 ⟨config.r1, 0⟩ * distance A1 ⟨config.r1, 0⟩) /
            (2 * distance A1 ⟨config.r1, 0⟩)))) * (0 - A1.y) / distance A1 ⟨config.r1, 0⟩,
       A1.y + (config.r3 * config.r3 - config.r4 * config.r4 +
          distance A1 ⟨config.r1, 0⟩ * distance A1 ⟨config.r1, 0⟩) /
          (2 * distance A1 ⟨config.r1, 0⟩) * (0 - A1.y) / distance A1 ⟨config.r1, 0⟩ -
        Real.sqrt (max 0 (config.r3 * config.r3 -
          (config.r3 * config.r3 - config.r4 * config.r4 +
            distance A1 ⟨config.r1, 0⟩ * distance A1 ⟨config.r1, 0⟩) /
            (2 * distance A1 ⟨config.r1, 0⟩) *
          ((config.r3 * config.r3 - config.r4 * config.r4 +
            distance A1 ⟨config.r1, 0⟩ * distance A1 ⟨config.r1, 0⟩) /
            (2 * distance A1 ⟨config.r1, 0⟩)))) * (config.r1 - A1.x) / distance A1 ⟨config.r1, 0⟩⟩ := by
    simp only [fwdB1]
    rw [hcalcA]
  have eB2 : fwdB2 ⟨config.r1, config.r2, config.r3, config.r4, -1⟩ (atan2 A1.y A1.x) =
      ⟨A1.x + (config.r3 * config.r3 - config.r4 * config.r4 +
          distance A1 ⟨config.r1, 0⟩ * distance A1 ⟨config.r1, 0⟩) /
          (2 * distance A1 ⟨config.r1, 0⟩) * (config.r1 - A1.x) / distance A1 ⟨config.r1, 0⟩ -
        Real.sqrt (max 0 (config.r3 * config.r3 -
          (config.r3 * config.r3 - config.r4 * config.r4 +
            distance A1 ⟨config.r1, 0⟩ * distance A1 ⟨config.r1, 0⟩) /
            (2 * distance A1 ⟨config.r1, 0⟩) *
          ((config.r3 * config.r3 - config.r4 * config.r4 +
            distance A1 ⟨config.r1, 0⟩ * distance A1 ⟨config.r1, 0⟩) /
            (2 * distance A1 ⟨config.r1, 0⟩)))) * (0 - A1.y) / distance A1 ⟨config.r1, 0⟩,
       A1.y + (config.r3 * config.r3 - config.r4 * config.r4 +
          distance A1 ⟨config.r1, 0⟩ * distance A1 ⟨config.r1, 0⟩) /
          (2 * distance A1 ⟨config.r1, 0⟩) * (0 - A1.y) / distance A1 ⟨config.r1, 0⟩ +
        Real.sqrt (max 0 (config.r3 * config.r3 -
          (config.r3 * config.r3 - config.r4 * config.r4 +
            distance A1 ⟨config.r1, 0⟩ * distance A1 ⟨config.r1, 0⟩) /
            (2 * distance A1 ⟨config.r1, 0⟩) *
          ((config.r3 * config.r3 - config.r4 * config.r4 +
            distance A1 ⟨config.r1, 0⟩ * distance A1 ⟨config.r1, 0⟩) /
            (2 * distance A1 ⟨config.r1, 0⟩)))) * (config.r1 - A1.x) / distance A1 ⟨config.r1, 0⟩⟩ := by
    simp only [fwdB2]
    rw [hcalcA]
  refine ⟨atan2 A1.y A1.x, hsome, ?_⟩
  rcases hcomplete with ⟨hx, hy⟩ | ⟨hx, hy⟩
  · refine ⟨1, Or.inl rfl, ?_, ?_⟩
    · rw [solveFourBar_of_not_gate _ _ (hg' 1)]
    · have hB' : (solveFourBar ⟨config.r1, config.r2, config.r3, config.r4, (1:ℤ)⟩
          (atan2 A1.y A1.x)).B =
          (if (1:ℤ) = 1 then
            fwdB1 ⟨config.r1, config.r2, config.r3, config.r4, 1⟩ (atan2 A1.y A1.x)
          else
            fwdB2 ⟨config.r1, config.r2, config.r3, config.r4, 1⟩ (atan2 A1.y A1.x)) := by
        rw [solveFourBar_of_not_gate _ _ (hg' 1)]
      rw [hB', if_pos rfl, eB1]
      apply Point.ext'
      · exact hx.symm
      · exact hy.symm
  · refine ⟨-1, Or.inr rfl, ?_, ?_⟩
    · rw [solveFourBar_of_not_gate _ _ (hg' (-1))]
    · have hB' : (solveFourBar ⟨config.r1, config.r2, config.r3, config.r4, (-1:ℤ)⟩
          (atan2 A1.y A1.x)).B =
          (if (-1:ℤ) = 1 then
            fwdB1 ⟨config.r1, config.r2, config.r3, config.r4, -1⟩ (atan2 A1.y A1.x)
          else
            fwdB2 ⟨config.r1, config.r2, config.r3, config.r4, -1⟩ (atan2 A1.y A1.x)) := by
        rw [solveFourBar_of_not_gate _ _ (hg' (-1))]
      rw [hB', if_neg (by decide : ¬ ((-1 : ℤ) = 1)), eB2]
      apply Point.ext'
      · exact hx.symm
      · exact hy.symm

/-- Witness for the amended C5 at configuration `(3, 1, 2, 2)`, open mode,
input angle `0`: the forward state has `B = (2, -√3)`, the inverse solve of
its `theta4` succeeds and one assembly mode reproduces `B` exactly. -/
theorem C5_roundtrip_amended_witness :
    ((0:ℝ) < 3 ∧ (0:ℝ) < 1 ∧ (0:ℝ) < 2 ∧
     (solveFourBar ⟨3, 1, 2, 2, 1⟩ 0).isValid = true ∧
     (solveFourBar ⟨3, 1, 2, 2, 1⟩ 0).B ≠ ⟨0, 0⟩ ∧
     inverseCandidateA ⟨3, 1, 2, 2, 1⟩ ((solveFourBar ⟨3, 1, 2, 2, 1⟩ 0).theta4) ≠ ⟨3, 0⟩) ∧
    (∃ t : ℝ, solveInverseTheta2 ⟨3, 1, 2, 2, 1⟩
        ((solveFourBar ⟨3, 1, 2, 2, 1⟩ 0).theta4) = some t ∧
      ∃ m : ℤ, (m = 1 ∨ m = -1) ∧
        (solveFourBar ⟨3, 1, 2, 2, m⟩ t).isValid = true ∧
        (solveFourBar ⟨3, 1, 2, 2, m⟩ t).B = (solveFourBar ⟨3, 1, 2, 2, 1⟩ 0).B) := by
  have hs3 : Real.sqrt 3 * Real.sqrt 3 = 3 := Real.mul_self_sqrt (by norm_num)
  have hdist : distance (calculateA (⟨3, 1, 2, 2, 1⟩ : MechanismConfig).r2 0)
      ⟨(⟨3, 1, 2, 2, 1⟩ : MechanismConfig).r1, 0⟩ = 2 := by
    unfold calculateA distance
    rw [Real.cos_zero, Real.sin_zero]
    norm_num
    exact sqrt_eq_of_sq _ _ (by norm_num) (by norm_num)
  have hgate : ¬ fwdGate ⟨3, 1, 2, 2, 1⟩ 0 := by
    unfold fwdGate
    rw [hdist]
    push_neg
    refine ⟨by norm_num, by norm_num, by norm_num⟩
  have hv : (solveFourBar ⟨3, 1, 2, 2, 1⟩ 0).isValid = true := by
    rw [solveFourBar_of_not_gate _ _ hgate]
  have hfwdB1 : fwdB1 ⟨3, 1, 2, 2, 1⟩ 0 = ⟨2, -Real.sqrt 3⟩ := by
    simp only [fwdB1]
    rw [hdist]
    unfold calculateA
    rw [Real.cos_zero, Real.sin_zero]
    dsimp only
    norm_num
  have hB : (solveFourBar ⟨3, 1, 2, 2, 1⟩ 0).B = ⟨2, -Real.sqrt 3⟩ := by
    have hB' : (solveFourBar ⟨3, 1, 2, 2, 1⟩ 0).B =
        (if (1:ℤ) = 1 then fwdB1 ⟨3, 1, 2, 2, 1⟩ 0 else fwdB2 ⟨3, 1, 2, 2, 1⟩ 0) := by
      rw [solveFourBar_of_not_gate _ _ hgate]
    rw [hB', if_pos rfl, hfwdB1]
  have hBne : (solveFourBar ⟨3, 1, 2, 2, 1⟩ 0).B ≠ ⟨0, 0⟩ := by
    rw [hB]
    intro heq
    have hx : (2:ℝ) = 0 := congrArg Point.x heq
    norm_num at hx
  have htheta4 : (solveFourBar ⟨3, 1, 2, 2, 1⟩ 0).theta4 =
      atan2 (-Real.sqrt 3) (-1) := by
    have ht' : (solveFourBar ⟨3, 1, 2, 2, 1⟩ 0).theta4 =
        atan2 ((if (1:ℤ) = 1 then fwdB1 ⟨3, 1, 2, 2, 1⟩ 0 else fwdB2 ⟨3, 1, 2, 2, 1⟩ 0).y - 0)
          ((if (1:ℤ) = 1 then fwdB1 ⟨3, 1, 2, 2, 1⟩ 0 else fwdB2 ⟨3, 1, 2, 2, 1⟩ 0).x - 3) := by
      rw [solveFourBar_of_not_gate _ _ hgate]
    rw [ht', if_pos rfl, hfwdB1]
    dsimp only
    norm_num
  have hcs := atan2_cos_sin (-1) (-Real.sqrt 3) 2 (by norm_num)
    (by rw [neg_pow, neg_pow]; norm_num)
  have hBpt : (⟨(3:ℝ) + 2 * Real.cos (atan2 (-Real.sqrt 3) (-1)),
      (2:ℝ) * Real.sin (atan2 (-Real.sqrt 3) (-1))⟩ : Point) = ⟨2, -Real.sqrt 3⟩ := by
    apply Point.ext'
    · dsimp only
      linarith [hcs.1]
    · dsimp only
      linarith [hcs.2]
  have hd7 : distance ⟨0, 0⟩ (⟨2, -Real.sqrt 3⟩ : Point) = Real.sqrt 7 := by
    unfold distance
    rw [show (((2:ℝ)) - 0) ^ 2 + ((-Real.sqrt 3) - 0) ^ 2 = 7 by
      nlinarith [hs3]]
  have hng : ¬ invGate ⟨3, 1, 2, 2, 1⟩ (atan2 (-Real.sqrt 3) (-1)) := by
    unfold invGate
    rw [invDist_eq_distance]
    dsimp only
    rw [hBpt, hd7]
    push_neg
    constructor
    · exact sqrt_le_of_sq _ _ (by norm_num) (by norm_num)
    · rw [show |(1:ℝ) - 2| = 1 by norm_num]
      exact le_sqrt_of_sq _ _ (by norm_num) (by norm_num)
  have hne : distance ⟨0, 0⟩ (⟨(3:ℝ) + 2 * Real.cos (atan2 (-Real.sqrt 3) (-1)),
      (2:ℝ) * Real.sin (atan2 (-Real.sqrt 3) (-1))⟩ : Point) ≠ 0 := by
    rw [hBpt, hd7]
    exact (Real.sqrt_pos.mpr (by norm_num)).ne'
  have hA1ne : inverseCandidateA ⟨3, 1, 2, 2, 1⟩
      ((solveFourBar ⟨3, 1, 2, 2, 1⟩ 0).theta4) ≠ ⟨3, 0⟩ := by
    rw [htheta4]
    intro heq
    have hd1 := (inverseCandidateA_dists ⟨3, 1, 2, 2, 1⟩ (atan2 (-Real.sqrt 3) (-1))
      (by norm_num) (by norm_num) hng hne).1
    rw [heq, distance_origin_ground] at hd1
    norm_num at hd1
  refine ⟨⟨by norm_num, by norm_num, by norm_num, hv, hBne, hA1ne⟩, ?_⟩
  exact C5_roundtrip_amended ⟨3, 1, 2, 2, 1⟩ 0 (by norm_num) (by norm_num) (by norm_num)
    (by norm_num) hv hBne hA1ne
